import Mathlib

/-!
Verification development for the data-pipeline-manager repository.

The definitions below are shallow embeddings of the Python sources:

* `services/opensearch_puller/opensearch_puller/utils.py` and `puller.py`
* `services/schema_migrator/schema_migrator/utils.py` and `migrator.py`

Machine integers are modelled as `Nat`/`Int`; instants are integers of
microseconds since the Unix epoch in UTC (Python `datetime` resolution);
fallible code returns `Except` or an explicit outcome value; stateful loops
are modelled as functions producing traces of effects.
-/

namespace DPM

/-- Single-quote character, used when building SQL text. -/
def sqc : Char := Char.ofNat 39

/-- Single-quote as a string. -/
def sq : String := String.mk [sqc]

/- ------------------------------------------------------------------
Identifier guard (`utils.py` in both services).
------------------------------------------------------------------ -/

/-- Character class of the regex `[A-Za-z0-9_]` from `_IDENTIFIER_RE`. -/
def isIdentChar (c : Char) : Bool :=
  decide ((65 ≤ c.toNat ∧ c.toNat ≤ 90) ∨ (97 ≤ c.toNat ∧ c.toNat ≤ 122) ∨
    (48 ≤ c.toNat ∧ c.toNat ≤ 57) ∨ c.toNat = 95)

/-- Python `_IDENTIFIER_RE.match(value)` for the pattern anchored with `^...$`.
Python's `$` matches at the end of the string *or just before a newline at
the end of the string*, so `re.match` also accepts a valid identifier
followed by one trailing `'\n'`. -/
def identifierMatches (s : String) : Bool :=
  (!s.data.isEmpty && s.data.all isIdentChar) ||
    ((s.data.getLast? == some '\n') && !s.data.dropLast.isEmpty &&
      s.data.dropLast.all isIdentChar)

/-- `require_identifier` from `utils.py`: returns the value unchanged when the
regex matches (Python truthiness of a nonempty string is irrelevant here
because a matching string is nonempty), otherwise raises `ValueError`. -/
def require_identifier (value : String) : Except String String :=
  if identifierMatches value then .ok value
  else .error ("Invalid identifier: " ++ value)

/-- `quote_identifier` from `utils.py`. -/
def quote_identifier (value : String) : Except String String :=
  (require_identifier value).map (fun v => "`" ++ v ++ "`")

/-- Python `"." in s` (String.contains is not kernel-reducible, so the
membership test is spelled out over the character list). -/
def containsDot (s : String) : Bool := s.data.any (fun c => c == '.')

/-- Python `str.split(sep, 1)` on the character `'.'`, first component. -/
def splitDotHead (s : String) : String :=
  String.mk (s.data.takeWhile (fun c => !(c == '.')))

/-- Python `str.split(sep, 1)` on the character `'.'`, second component. -/
def splitDotTail (s : String) : String :=
  String.mk ((s.data.dropWhile (fun c => !(c == '.'))).drop 1)

/-- `ClickHouseWriter.ensure_project_storage` (`puller.py`): the SQL statements
executed in order, paired with the error if an identifier guard fired first.
The first component is the list of statements emitted *before* the failure;
the CREATE TABLE body is reproduced on one line (whitespace inside the
statement carries no meaning for these claims). -/
def ensure_project_storage (project_id : String) : List String × Option String :=
  match require_identifier project_id with
  | .error e => ([], some e)
  | .ok _ =>
    match quote_identifier (project_id ++ "_bronze") with
    | .error e => ([], some e)
    | .ok qb =>
      let s1 := "CREATE DATABASE IF NOT EXISTS " ++ qb
      match quote_identifier (project_id ++ "_gold") with
      | .error e => ([s1], some e)
      | .ok qg =>
        let s2 := "CREATE DATABASE IF NOT EXISTS " ++ qg
        match quote_identifier "os_events_raw" with
        | .error e => ([s1, s2], some e)
        | .ok qt =>
          let table := qb ++ "." ++ qt
          let s3 := "CREATE TABLE IF NOT EXISTS " ++ table ++
            " (event_id String, event_ts DateTime64(3), index_name String," ++
            " source_id String, raw String, ingested_at DateTime64(3)," ++
            " extras Map(String, String) DEFAULT map())" ++
            " ENGINE = MergeTree PARTITION BY toDate(event_ts)" ++
            " ORDER BY (source_id, toDate(event_ts), event_ts, event_id)"
          ([s1, s2, s3], none)

/-- The SQL text built by `ClickHouseWriter.insert_rows` (`puller.py`) before
any bytes are sent to the warehouse. -/
def insert_rows_sql (database table : String) : Except String String := do
  let qd ← quote_identifier database
  let qt ← quote_identifier table
  pure ("INSERT INTO " ++ qd ++ "." ++ qt ++ " FORMAT JSONEachRow")

/-- `_resolve_target_table` from `migrator.py`. -/
def resolve_target_table (db_name table_name : String) : Except String String :=
  if containsDot table_name then do
    let a ← quote_identifier (splitDotHead table_name)
    let b ← quote_identifier (splitDotTail table_name)
    pure (a ++ "." ++ b)
  else do
    let a ← quote_identifier db_name
    let b ← quote_identifier table_name
    pure (a ++ "." ++ b)

/-- One row of `_apply_field_registry` (`migrator.py`), from the identifier
pre-checks through the construction of the ALTER statement.  `db_suffix` is
the layer-derived suffix; a `ValueError` from any guard is surfaced as
`.error` (in the source the pre-check block skips the row and a later guard
failure propagates; either way no statement is produced). An empty
`expression_sql` is falsy in Python and treated like a missing one. -/
def field_registry_statement (project_id db_suffix table_name column_name
    column_type : String) (expression_sql : Option String) (mode : String) :
    Except String String := do
  let _ ← require_identifier project_id
  let _ ←
    if containsDot table_name then do
      let _ ← require_identifier (splitDotHead table_name)
      require_identifier (splitDotTail table_name)
    else
      require_identifier table_name
  let _ ← require_identifier column_name
  let target_db := project_id ++ db_suffix
  let table ← resolve_target_table target_db table_name
  let column ← quote_identifier column_name
  let hasExpr := match expression_sql with
    | some e => !(e == "")
    | none => false
  if hasExpr then
    let expr := expression_sql.getD ""
    let mode1 := if mode == "ALIAS" || mode == "MATERIALIZED" then mode else "ALIAS"
    pure ("ALTER TABLE " ++ table ++ " ADD COLUMN IF NOT EXISTS " ++ column ++
      " " ++ column_type ++ " " ++ mode1 ++ " " ++ expr)
  else
    pure ("ALTER TABLE " ++ table ++ " ADD COLUMN IF NOT EXISTS " ++ column ++
      " " ++ column_type)

/- ------------------------------------------------------------------
Timestamp codec (`utils.py`), modelled at microsecond resolution:
instants are microseconds since the Unix epoch, UTC (the resolution of
Python `datetime`).  The model covers the epoch era (1970-01-01 up to
year 9999), the range every claim exercises.
------------------------------------------------------------------ -/

/-- Microseconds per second. -/
def usPerSec : Nat := 1000000

/-- Microseconds per minute. -/
def usPerMin : Nat := 60000000

/-- Microseconds per hour. -/
def usPerHour : Nat := 3600000000

/-- Microseconds per day. -/
def usPerDay : Nat := 86400000000

/-- Gregorian leap year, as Python `calendar`/`datetime`. -/
def isLeap (y : Nat) : Bool := y % 4 == 0 && (y % 100 != 0 || y % 400 == 0)

/-- Days in a Gregorian year. -/
def daysInYear (y : Nat) : Nat := if isLeap y then 366 else 365

/-- Month lengths of a (leap) year. -/
def monthLens (leap : Bool) : List Nat :=
  [31, if leap then 29 else 28, 31, 30, 31, 30, 31, 31, 30, 31, 30, 31]

/-- Find the year containing 0-based day `n` counted from Jan 1 of year `y`,
peeling whole years; any `fuel > n` suffices since a year has ≥ 365 days.
Returns the year and the remaining 0-based day of year. -/
def yearGo : (fuel : Nat) → (y : Nat) → (n : Nat) → Nat × Nat
  | 0, y, n => (y, n)
  | fuel + 1, y, n =>
    if n < daysInYear y then (y, n) else yearGo fuel (y + 1) (n - daysInYear y)

/-- Split a 0-based day-of-year into (1-based month starting at `m`,
1-based day) by peeling month lengths. -/
def monthGo : List Nat → Nat → Nat → Nat × Nat
  | [], m, n => (m, n + 1)
  | len :: rest, m, n =>
    if n < len then (m, n + 1) else monthGo rest (m + 1) (n - len)

/-- Civil date (proleptic Gregorian, as Python `datetime`) of a day count
from 1970-01-01. -/
def dateOfDays (n : Nat) : Nat × Nat × Nat :=
  let yr := yearGo (n + 1) 1970 n
  let md := monthGo (monthLens (isLeap yr.1)) 1 yr.2
  (yr.1, md.1, md.2)

/-- Days from Jan 1 of year `y` to Jan 1 of year `y + k`. -/
def spanDays (y : Nat) : Nat → Nat
  | 0 => 0
  | k + 1 => daysInYear y + spanDays (y + 1) k

/-- Day count from 1970-01-01 of a civil date (year ≥ 1970). -/
def daysOfDate (y m d : Nat) : Nat :=
  spanDays 1970 (y - 1970) + ((monthLens (isLeap y)).take (m - 1)).sum + (d - 1)

/-- Civil components of an instant. -/
structure Civil where
  year : Nat
  month : Nat
  day : Nat
  hour : Nat
  minute : Nat
  second : Nat
  micro : Nat
deriving DecidableEq, Repr

/-- `datetime.fromtimestamp(t, tz=utc)` for a nonnegative instant `t` in
microseconds. -/
def civilOf (t : Nat) : Civil :=
  let ymd := dateOfDays (t / usPerDay)
  { year := ymd.1, month := ymd.2.1, day := ymd.2.2,
    hour := t % usPerDay / usPerHour, minute := t % usPerHour / usPerMin,
    second := t % usPerMin / usPerSec, micro := t % usPerSec }

/-- Microseconds since the epoch of a civil reading (year ≥ 1970). -/
def usOfCivil (c : Civil) : Nat :=
  daysOfDate c.year c.month c.day * usPerDay + c.hour * usPerHour +
    c.minute * usPerMin + c.second * usPerSec + c.micro

/-- Decimal digit character. -/
def digitChar : Nat → Char
  | 0 => '0' | 1 => '1' | 2 => '2' | 3 => '3' | 4 => '4'
  | 5 => '5' | 6 => '6' | 7 => '7' | 8 => '8' | _ => '9'

/-- Value of a decimal digit character. -/
def digitVal (c : Char) : Option Nat :=
  if 48 ≤ c.toNat && c.toNat ≤ 57 then some (c.toNat - 48) else none

/-- Decimal digit test. -/
def isDigitCh (c : Char) : Bool := (digitVal c).isSome

/-- Two zero-padded decimal digits (for values < 100). -/
def pad2 (n : Nat) : List Char := [digitChar (n / 10), digitChar (n % 10)]

/-- Three zero-padded decimal digits (for values < 1000). -/
def pad3 (n : Nat) : List Char :=
  [digitChar (n / 100), digitChar (n / 10 % 10), digitChar (n % 10)]

/-- Four zero-padded decimal digits (for values < 10000). -/
def pad4 (n : Nat) : List Char :=
  [digitChar (n / 1000), digitChar (n / 100 % 10), digitChar (n / 10 % 10),
   digitChar (n % 10)]

/-- Shared rendering of both formatters:
`YYYY-MM-DD<sep>HH:MM:SS.mmm[Z]`.  The millisecond field truncates the
microseconds, as both `isoformat(timespec="milliseconds")` and
`strftime(...%f)[:-3]` do. -/
def formatChars (sep : Char) (zSuffix : Bool) (t : Nat) : List Char :=
  let c := civilOf t
  pad4 c.year ++ '-' :: pad2 c.month ++ '-' :: pad2 c.day ++
    sep :: pad2 c.hour ++ ':' :: pad2 c.minute ++ ':' :: pad2 c.second ++
    '.' :: pad3 (c.micro / 1000) ++ (if zSuffix then ['Z'] else [])

/-- `format_timestamp` from `utils.py`:
`astimezone(utc).isoformat(timespec="milliseconds")` with `+00:00`
replaced by `Z` — `YYYY-MM-DDTHH:MM:SS.mmmZ`.  (Instants before 1970 are
outside the modelled range.) -/
def format_timestamp (t : Int) : String :=
  String.mk (formatChars 'T' true t.toNat)

/-- `format_timestamp_ch` from `utils.py`:
`strftime("%Y-%m-%d %H:%M:%S.%f")[:-3]` — `YYYY-MM-DD HH:MM:SS.mmm`. -/
def format_timestamp_ch (t : Int) : String :=
  String.mk (formatChars ' ' false t.toNat)

/-- Two decimal digits. -/
def read2 (a b : Char) : Option Nat := do
  let x ← digitVal a
  let y ← digitVal b
  pure (10 * x + y)

/-- Four decimal digits. -/
def read4 (a b c d : Char) : Option Nat := do
  let x ← digitVal a
  let y ← digitVal b
  let z ← digitVal c
  let w ← digitVal d
  pure (1000 * x + 100 * y + 10 * z + w)

/-- Value of a digit sequence, most significant first. -/
def digitsVal : List Char → Nat → Option Nat
  | [], acc => some acc
  | c :: cs, acc =>
    match digitVal c with
    | some d => digitsVal cs (acc * 10 + d)
    | none => none

/-- `±HH[:MM]` / `±HHMM` utc-offset magnitude in microseconds. -/
def parseTzHM : List Char → Option Nat
  | [h1, h2] => (read2 h1 h2).map (· * usPerHour)
  | [h1, h2, ':', m1, m2] => do
    let h ← read2 h1 h2
    let m ← read2 m1 m2
    pure (h * usPerHour + m * usPerMin)
  | [h1, h2, m1, m2] => do
    let h ← read2 h1 h2
    let m ← read2 m1 m2
    pure (h * usPerHour + m * usPerMin)
  | _ => none

/-- Offset suffix of an ISO-8601 string: empty (naive), `Z`, or a signed
offset.  Returns the offset in microseconds when one is present. -/
def parseTz : List Char → Option (Option Int)
  | [] => some none
  | ['Z'] => some (some 0)
  | '+' :: rest => (parseTzHM rest).map (fun o => some (o : Int))
  | '-' :: rest => (parseTzHM rest).map (fun o => some (-(o : Int)))
  | _ => none

/-- Fractional seconds (1–6 digits, scaled to microseconds) followed by the
offset suffix. -/
def parseFracDigits (cs : List Char) : Option (Nat × Option Int) :=
  let digs := cs.takeWhile isDigitCh
  if 1 ≤ digs.length ∧ digs.length ≤ 6 then
    match digitsVal digs 0 with
    | some v =>
      (parseTz (cs.dropWhile isDigitCh)).map
        (fun o => (v * 10 ^ (6 - digs.length), o))
    | none => none
  else none

/-- Optional fraction then offset. -/
def parseFracTz : List Char → Option (Nat × Option Int)
  | '.' :: rest => parseFracDigits rest
  | ',' :: rest => parseFracDigits rest
  | cs => (parseTz cs).map (fun o => (0, o))

/-- `HH:MM:SS[.ffffff][offset]`: microseconds of the day plus the offset. -/
def parseTime : List Char → Option (Nat × Option Int)
  | h1 :: h2 :: ':' :: m1 :: m2 :: ':' :: s1 :: s2 :: rest => do
    let hh ← read2 h1 h2
    let mm ← read2 m1 m2
    let ss ← read2 s1 s2
    if hh ≤ 23 ∧ mm ≤ 59 ∧ ss ≤ 59 then
      let fo ← parseFracTz rest
      pure (hh * usPerHour + mm * usPerMin + ss * usPerSec + fo.1, fo.2)
    else none
  | _ => none

/-- Model of `dateutil.parser.isoparse` restricted to the extended profile
`YYYY-MM-DD[<sep>HH:MM:SS[.ffffff]][Z|±HH:MM]` that this code base's
formatters produce (isoparse accepts any single character as the date-time
separator; its further abbreviated forms, and dates before 1970, are not
modelled — no claim exercises them).  Returns the wall-clock microseconds
of the civil reading plus the explicit offset when one is present; `none`
is dateutil's `ValueError`. -/
def isoparse (cs : List Char) : Option (Nat × Option Int) :=
  match cs with
  | y1 :: y2 :: y3 :: y4 :: '-' :: a1 :: a2 :: '-' :: b1 :: b2 :: rest => do
    let y ← read4 y1 y2 y3 y4
    let mo ← read2 a1 a2
    let d ← read2 b1 b2
    if 1970 ≤ y ∧ 1 ≤ mo ∧ mo ≤ 12 ∧ 1 ≤ d ∧
        d ≤ (monthLens (isLeap y)).getD (mo - 1) 31 then
      let base := daysOfDate y mo d * usPerDay
      match rest with
      | [] => some (base, none)
      | _sep :: tcs => do
        let t ← parseTime tcs
        pure (base + t.1, t.2)
    else none
  | _ => none

/- ------------------------------------------------------------------
JSON values (as decoded by Python `json` / the OpenSearch response),
compact serialization (`json.dumps(..., separators=(",", ":"))`), and
Python truthiness / str().
------------------------------------------------------------------ -/

/-- A JSON value; numbers are modelled as integers (every claim uses
integral numbers only), objects as insertion-ordered field lists. -/
inductive Json where
  | null
  | bool (b : Bool)
  | num (n : Int)
  | str (s : String)
  | arr (xs : List Json)
  | obj (fields : List (String × Json))

/-- Left brace character (written via its code point, as required for
brace-free source text). -/
def lbrace : Char := Char.ofNat 123

/-- Right brace character. -/
def rbrace : Char := Char.ofNat 125

/-- Hexadecimal digit character (lowercase, as `json.dumps`). -/
def hexDigit : Nat → Char
  | 0 => '0' | 1 => '1' | 2 => '2' | 3 => '3' | 4 => '4'
  | 5 => '5' | 6 => '6' | 7 => '7' | 8 => '8' | 9 => '9'
  | 10 => 'a' | 11 => 'b' | 12 => 'c' | 13 => 'd' | 14 => 'e' | _ => 'f'

/-- JSON escape of one character under `json.dumps` defaults
(`ensure_ascii=True`): the two mandatory escapes, the C0 shorthands,
`\uXXXX` for remaining control and all non-ASCII characters, surrogate
pairs above the BMP. -/
def escapeChar (c : Char) : List Char :=
  if c = '"' then ['\\', '"']
  else if c = '\\' then ['\\', '\\']
  else if c = '\n' then ['\\', 'n']
  else if c = '\t' then ['\\', 't']
  else if c = '\r' then ['\\', 'r']
  else if c.toNat = 8 then ['\\', 'b']
  else if c.toNat = 12 then ['\\', 'f']
  else if c.toNat < 32 then
    ['\\', 'u', '0', '0', hexDigit (c.toNat / 16), hexDigit (c.toNat % 16)]
  else if c.toNat < 127 then [c]
  else if c.toNat < 65536 then
    ['\\', 'u', hexDigit (c.toNat / 4096 % 16), hexDigit (c.toNat / 256 % 16),
     hexDigit (c.toNat / 16 % 16), hexDigit (c.toNat % 16)]
  else
    let v := c.toNat - 65536
    let hi := 55296 + v / 1024
    let lo := 56320 + v % 1024
    ['\\', 'u', hexDigit (hi / 4096 % 16), hexDigit (hi / 256 % 16),
     hexDigit (hi / 16 % 16), hexDigit (hi % 16),
     '\\', 'u', hexDigit (lo / 4096 % 16), hexDigit (lo / 256 % 16),
     hexDigit (lo / 16 % 16), hexDigit (lo % 16)]

/-- Escape a whole string body. -/
def escapeString : List Char → List Char
  | [] => []
  | c :: cs => escapeChar c ++ escapeString cs

/-- A JSON string literal with quotes. -/
def dumpsStr (s : String) : List Char := '"' :: escapeString s.data ++ ['"']

/-- Decimal digits of a natural number (kernel-reducible, unlike
`Nat.repr`); `fuel` bounds the recursion, any `fuel ≥ n` is enough. -/
def natDigits : (fuel : Nat) → (n : Nat) → List Char
  | 0, _ => []
  | _ + 1, 0 => []
  | fuel + 1, n => natDigits fuel (n / 10) ++ [digitChar (n % 10)]

/-- Decimal rendering of an integer, as Python `str`/`json.dumps`. -/
def intChars (n : Int) : List Char :=
  if n = 0 then ['0']
  else if n < 0 then '-' :: natDigits n.natAbs n.natAbs
  else natDigits n.toNat n.toNat

mutual

/-- `json.dumps(value, separators=(",", ":"))`: compact JSON text. -/
def dumps : Json → List Char
  | .null => "null".data
  | .bool true => "true".data
  | .bool false => "false".data
  | .num n => intChars n
  | .str s => dumpsStr s
  | .arr xs => '[' :: dumpsArr xs ++ [']']
  | .obj fs => lbrace :: dumpsObj fs ++ [rbrace]

/-- Comma-joined array items. -/
def dumpsArr : List Json → List Char
  | [] => []
  | [x] => dumps x
  | x :: xs => dumps x ++ ',' :: dumpsArr xs

/-- Comma-joined object fields (insertion order, as Python dict). -/
def dumpsObj : List (String × Json) → List Char
  | [] => []
  | [f] => dumpsStr f.1 ++ ':' :: dumps f.2
  | f :: fs => (dumpsStr f.1 ++ ':' :: dumps f.2) ++ ',' :: dumpsObj fs

end

/-- Python truthiness of a JSON-decoded value. -/
def pyTruthy : Json → Bool
  | .null => false
  | .bool b => b
  | .num n => !(n == 0)
  | .str s => !s.data.isEmpty
  | .arr xs => !xs.isEmpty
  | .obj fs => !fs.isEmpty

/-- Python `str()` of a JSON-decoded value.  Scalars are exact; containers
stringify via their JSON text here (Python `repr` renders them with single
quotes — no claim stringifies a container). -/
def pyStr : Json → String
  | .null => "None"
  | .bool true => "True"
  | .bool false => "False"
  | .num n => String.mk (intChars n)
  | .str s => s
  | .arr xs => String.mk (dumps (.arr xs))
  | .obj fs => String.mk (dumps (.obj fs))

/-- First value bound to key `k`, Python `dict.get`. -/
def jsonGet (fields : List (String × Json)) (k : String) : Option Json :=
  match fields with
  | [] => none
  | f :: rest => if f.1 == k then some f.2 else jsonGet rest k

mutual

/-- `parse_timestamp` from `utils.py`.  `None` → none; Python `bool` is an
`int` instance, so `True`/`False` take the numeric path (1s / 0s); a number
strictly greater than 1e11 is epoch *milliseconds*, otherwise epoch
*seconds* (exact integer arithmetic; `datetime`'s year-range overflow for
absurd magnitudes is not modelled); a string goes through
`dateutil.parser.isoparse`, whose `ValueError` on an unparseable string is
the `.error` case, and a naive result is reinterpreted as UTC; a mapping
recurses into its `"$date"` member; anything else → none. -/
def parse_timestamp : Json → Except String (Option Int)
  | .null => .ok none
  | .bool b => .ok (some (if b then (usPerSec : Int) else 0))
  | .num v => .ok (some (if v > 100000000000 then v * 1000 else v * 1000000))
  | .str s =>
    match isoparse s.data with
    | some (wall, some off) => .ok (some ((wall : Int) - off))
    | some (wall, none) => .ok (some (wall : Int))
    | none => .error "ValueError"
  | .arr _ => .ok none
  | .obj fields => parse_timestamp_date fields

/-- The `"$date"` lookup of `parse_timestamp` over the object's fields. -/
def parse_timestamp_date : List (String × Json) → Except String (Option Int)
  | [] => .ok none
  | f :: rest =>
    if f.1 == "$date" then parse_timestamp f.2 else parse_timestamp_date rest

end

/- ------------------------------------------------------------------
Hit-to-row mapping (`_extract_event_ts`, `_build_rows`, `puller.py`).
------------------------------------------------------------------ -/

/-- One OpenSearch search hit as consumed by `_build_rows`: `hid` is
`_id`, `hindex` is `_index`, `sort` is the sort values (absent = `[]`),
`source` is the `_source` document (`hit.get("_source") or {}` collapses a
missing or null source to the empty object). -/
structure Hit where
  hid : Option String
  hindex : Option String
  sort : List Json
  source : List (String × Json)

/-- `_extract_event_ts`: parse `_source[time_field]`; when that yields no
instant, fall back to `sort[0]`.  A Python datetime is always truthy, so
`if ts:` means “parsed”.  `parse_timestamp` may raise on a malformed
string, which propagates. -/
def extract_event_ts (hit : Hit) (time_field : String) :
    Except String (Option Int) := do
  let ts ← match jsonGet hit.source time_field with
    | some v => parse_timestamp v
    | none => pure none
  match ts with
  | some t => pure (some t)
  | none =>
    match hit.sort with
    | [] => pure none
    | s0 :: _ => parse_timestamp s0

/-- One row of the raw landing table, as built by `_build_rows`. -/
structure Row where
  event_id : String
  event_ts : String
  index_name : String
  source_id : String
  raw : String
  ingested_at : String
  extras : List (String × String)
deriving DecidableEq, Repr

/-- The loop body of `_build_rows` over the hits: a hit without an
extractable timestamp is skipped (logged); a malformed timestamp string
raises out of the whole batch.  `ingested_at` was formatted once before
the loop. -/
def build_rows_go (ingested_at : String) (time_field : String)
    (source_id : Nat) : List Hit → Except String (List Row)
  | [] => .ok []
  | hit :: rest => do
    let ets ← extract_event_ts hit time_field
    match ets with
    | none => build_rows_go ingested_at time_field source_id rest
    | some t =>
      let hidJson : Json := match hit.hid with
        | some i => .str i
        | none => .null
      let fallback : Json := (jsonGet hit.source "event_id").getD .null
      let eidJson := if pyTruthy hidJson then hidJson
        else if pyTruthy fallback then fallback
        else .str ""
      let rows ← build_rows_go ingested_at time_field source_id rest
      pure ({ event_id := pyStr eidJson,
              event_ts := format_timestamp_ch t,
              index_name := hit.hindex.getD "",
              source_id := pyStr (.num source_id),
              raw := String.mk (dumps (.obj hit.source)),
              ingested_at := ingested_at,
              extras := [("_index", hit.hindex.getD "")] } :: rows)

/-- `_build_rows` (`puller.py`); `now` is `datetime.now(timezone.utc)`. -/
def build_rows (now : Int) (hits : List Hit) (time_field : String)
    (source_id : Nat) : Except String (List Row) :=
  build_rows_go (format_timestamp_ch now) time_field source_id hits

/-- Modelled from the claim's wording (C6), for comparison with
`build_rows`: the row described for a hit whose extracted timestamp is
`t` — `event_id = _id || _source.event_id || ""`, `event_ts` in warehouse
format, `index_name = _index`, `source_id` as a string, `raw` the compact
JSON of `_source`, `ingested_at = now` in warehouse format, and
`extras = [("_index", _index)]`. -/
def claimRow (ingested_at : String) (sid : Nat) (hit : Hit) (t : Int) : Row :=
  { event_id := pyStr
      (if pyTruthy (match hit.hid with
          | some i => Json.str i
          | none => Json.null) then
        (match hit.hid with
         | some i => Json.str i
         | none => Json.null)
      else if pyTruthy ((jsonGet hit.source "event_id").getD .null) then
        (jsonGet hit.source "event_id").getD .null
      else Json.str ""),
    event_ts := format_timestamp_ch t,
    index_name := hit.hindex.getD "",
    source_id := pyStr (.num sid),
    raw := String.mk (dumps (.obj hit.source)),
    ingested_at := ingested_at,
    extras := [("_index", hit.hindex.getD "")] }

/- ------------------------------------------------------------------
Search window derivation (`_build_query`, `_process_incremental`).
------------------------------------------------------------------ -/

/-- `_build_query` (`puller.py`): the range filter on the time field
(bounds formatted with `format_timestamp`) intersected with the source's
optional query filter (after `safe_json_load`; Python-falsy filters are
dropped), `match_all` when nothing remains. -/
def build_query (time_field : String) (start_ts end_ts : Option Int)
    (query_filter : Option Json) : Json :=
  let range_body : List (String × Json) :=
    (match start_ts with
     | some t => [("gte", Json.str (format_timestamp t))]
     | none => []) ++
    (match end_ts with
     | some t => [("lte", Json.str (format_timestamp t))]
     | none => [])
  let filters : List Json :=
    (if start_ts.isSome || end_ts.isSome then
      [Json.obj [("range", Json.obj [(time_field, Json.obj range_body)])]]
     else []) ++
    (match query_filter with
     | some f => if pyTruthy f then [f] else []
     | none => [])
  if !filters.isEmpty then
    Json.obj [("bool", Json.obj [("filter", Json.arr filters)])]
  else Json.obj [("match_all", Json.obj [])]

/-- One `ingestion_state` row as read back by the puller. -/
structure IngestionState where
  last_ts : Option Int
  last_sort_json : List Json
  last_id : Option String

/-- The window derivation of `_process_incremental` for one index: returns
`(start_ts, end_ts, search_after)` exactly as passed to `_process_index`
(`search_after = []` models Python `None` / a null `last_sort_json`).
`overlap_minutes * 60 ≤ 0` is `overlap.total_seconds() <= 0`. -/
def incremental_window (state : Option IngestionState) (now : Int)
    (overlap_minutes : Int) : Int × Int × List Json :=
  let last_ts := match state with
    | some st => st.last_ts
    | none => none
  let overlap : Int := overlap_minutes * 60 * 1000000
  let start_ts := match last_ts with
    | some t => t - overlap
    | none => now - overlap
  let use_search_after := last_ts.isSome && decide (overlap_minutes * 60 ≤ 0)
  let search_after := match state with
    | some st => if use_search_after then st.last_sort_json else []
    | none => []
  (start_ts, now, search_after)

/- ------------------------------------------------------------------
Upstream retry loop (`OpenSearchClient._request`, `puller.py`).
------------------------------------------------------------------ -/

/-- Outcome of one HTTP attempt: either the transport fails (connection
error, timeout — a `requests.RequestException`) or a response with a status
code arrives. -/
inductive Attempt where
  | transportErr
  | status (code : Nat)
deriving DecidableEq, Repr

/-- Whether the attempt raises inside the `try` block of `_request`:
a transport error raises directly, and `raise_for_status` raises
`requests.HTTPError` — itself a `requests.RequestException` — for every
status in 400..599, 4xx included. -/
def attemptFails : Attempt → Bool
  | .transportErr => true
  | .status c => decide (400 ≤ c ∧ c < 600)

/-- Result of `_request`: the response returned (with the attempt index), the
exception re-raised on the final attempt, or the `RuntimeError` reached when
`MAX_RETRIES` is 0 and the loop body never runs. -/
inductive ReqOutcome where
  | success (a : Attempt) (attempt : Nat)
  | raised (exc : Attempt) (attempt : Nat)
  | exhausted
deriving DecidableEq, Repr

/-- The retry loop of `_request`, indexed by the remaining number of loop
iterations (`remaining = MAX_RETRIES - i`); returns the outcome and the list
of back-off sleeps performed (`backoff_base * 2 ** attempt`).  `att i` is
the outcome of the i-th HTTP attempt. -/
def request_go (backoff : ℚ) (att : Nat → Attempt) :
    (remaining : Nat) → (i : Nat) → ReqOutcome × List ℚ
  | 0, _ => (.exhausted, [])
  | r + 1, i =>
    if attemptFails (att i) then
      if r = 0 then (.raised (att i) i, [])
      else
        let (o, sl) := request_go backoff att r (i + 1)
        (o, backoff * 2 ^ i :: sl)
    else (.success (att i) i, [])

/-- `OpenSearchClient._request`: run the attempt loop from attempt 0 with
`maxRetries` iterations. -/
def request (maxRetries : Nat) (backoff : ℚ) (att : Nat → Attempt) :
    ReqOutcome × List ℚ :=
  request_go backoff att maxRetries 0

/- ------------------------------------------------------------------
Warehouse insert retry (`_retry_clickhouse`, `puller.py`)
and config validation (`_apply_config_value`).
------------------------------------------------------------------ -/

/-- Result of `_retry_clickhouse`: the function returns after a successful
insert, re-raises after the final failed attempt, or falls off the end of
`range(MAX_RETRIES)` without ever calling `insert_rows` (only possible when
`MAX_RETRIES = 0`), returning `None` silently. -/
inductive ChOutcome where
  | returned (attempt : Nat)
  | raised (attempt : Nat)
  | fellThrough
deriving DecidableEq, Repr

/-- The loop of `_retry_clickhouse`; `failsAt i` says whether the i-th
`insert_rows` call raises a `requests.RequestException`, and `rows` is the
batch handed to every `insert_rows` call.  Returns the outcome together
with the list of `insert_rows` invocations actually made, each recorded as
(attempt index, rows passed). -/
def retry_clickhouse_go (failsAt : Nat → Bool) (rows : List String) :
    (remaining : Nat) → (i : Nat) → ChOutcome × List (Nat × List String)
  | 0, _ => (.fellThrough, [])
  | r + 1, i =>
    if failsAt i then
      if r = 0 then (.raised i, [(i, rows)])
      else
        let (o, calls) := retry_clickhouse_go failsAt rows r (i + 1)
        (o, (i, rows) :: calls)
    else (.returned i, [(i, rows)])

/-- `_retry_clickhouse` with the effective `config.MAX_RETRIES`. -/
def retry_clickhouse (maxRetries : Nat) (failsAt : Nat → Bool)
    (rows : List String) : ChOutcome × List (Nat × List String) :=
  retry_clickhouse_go failsAt rows maxRetries 0

/-- `_apply_config_value` (`puller.py`) for an integer-typed field whose
stored value is already an integer (the `int` cast succeeds) and whose
`minimum` is supplied: values below the minimum are ignored, everything
else replaces the current value. -/
def apply_config_value (current : Int) (value : Option Int) (minimum : Int) : Int :=
  match value with
  | none => current
  | some v => if v < minimum then current else v

/- ------------------------------------------------------------------
JSON-path expression compiler (`migrator.py`).
------------------------------------------------------------------ -/

/-- Python `str.strip()` whitespace (the ASCII part; no claim uses the
unicode spaces). -/
def isPyWs (c : Char) : Bool :=
  c == ' ' || c == '\t' || c == '\n' || c == '\r' || c.toNat == 11 || c.toNat == 12

/-- Python `str.strip()`. -/
def pyStrip (s : String) : String :=
  String.mk (((s.data.dropWhile isPyWs).reverse.dropWhile isPyWs).reverse)

/-- Python `str.strip(chars)` for a single character. -/
def pyStripChar (ch : Char) (s : String) : String :=
  String.mk (((s.data.dropWhile (· == ch)).reverse.dropWhile (· == ch)).reverse)

/-- Does `p` occur at the start of the list? -/
def leadsWith : List Char → List Char → Bool
  | [], _ => true
  | a :: as, b :: bs => a == b && leadsWith as bs
  | _ :: _, [] => false

/-- Python `str.startswith`. -/
def strStarts (p : String) (s : String) : Bool := leadsWith p.data s.data

/-- Python `str.isdigit()` on ASCII digits. -/
def pyIsDigit (s : String) : Bool := !s.data.isEmpty && s.data.all isDigitCh

/-- Python `str.splitlines()` over `\n`, `\r\n` and `\r`. -/
def splitLinesGo : List Char → List Char → List (List Char)
  | [], acc => if acc.isEmpty then [] else [acc.reverse]
  | '\r' :: '\n' :: rest, acc => acc.reverse :: splitLinesGo rest []
  | '\n' :: rest, acc => acc.reverse :: splitLinesGo rest []
  | '\r' :: rest, acc => acc.reverse :: splitLinesGo rest []
  | c :: rest, acc => splitLinesGo rest (c :: acc)

/-- Python `str.splitlines()`. -/
def splitlines (s : String) : List String := (splitLinesGo s.data []).map String.mk

/-- Python `str.split(sep)` for a single separator character (keeps empty
chunks, as Python does). -/
def splitCharGo (sep : Char) : List Char → List Char → List (List Char)
  | [], acc => [acc.reverse]
  | c :: rest, acc =>
    if c == sep then acc.reverse :: splitCharGo sep rest []
    else splitCharGo sep rest (c :: acc)

/-- Python `str.split(sep)` for one separator character. -/
def splitChar (sep : Char) (s : String) : List String :=
  (splitCharGo sep s.data []).map String.mk

/-- Python `sep.join(items)`. -/
def joinSep (sep : String) : List String → String
  | [] => ""
  | [x] => x
  | x :: xs => x ++ sep ++ joinSep sep xs

/-- `_split_paths` (`migrator.py`): newline- or comma-separated list, each
item stripped, empties dropped. -/
def split_paths (value : Option String) : List String :=
  match value with
  | none => []
  | some v =>
    if v == "" then []
    else
      (((splitlines v).map
          (fun line => (splitChar ',' line).map pyStrip)).flatten).filter
        (fun item => !(item == ""))

/-- `_normalize_json_path` (`migrator.py`).  The `_SIMPLE_PATH_RE` branch
and the fall-through return the same string, so the regex test is
behaviourally irrelevant and not reproduced. -/
def normalize_json_path (path : String) : String :=
  if strStarts "$" path then path
  else if strStarts "@" path then "$.\"" ++ path ++ "\""
  else "$." ++ path

/-- `_unwrap_nullable` (`migrator.py`). -/
def unwrap_nullable (column_type : String) : String :=
  let ct := pyStrip column_type
  if strStarts "Nullable(" ct && (ct.data.getLast? == some ')') then
    pyStrip (String.mk ((ct.data.drop 9).dropLast))
  else ct

/-- `_coerce_expression` (`migrator.py`). -/
def coerce_expression (expr : String) (base_type : String) : String :=
  if base_type == "" then expr
  else if strStarts "DateTime64" base_type || strStarts "DateTime" base_type then
    "parseDateTime64BestEffortOrNull(" ++ expr ++ ")"
  else if strStarts "IPv6" base_type then
    "toIPv6OrNull(" ++ expr ++ ")"
  else if strStarts "UInt" base_type then
    let bits := String.mk (base_type.data.drop 4)
    let f := if pyIsDigit bits then "toUInt" ++ bits ++ "OrNull" else "toUInt64OrNull"
    f ++ "(" ++ expr ++ ")"
  else if strStarts "Int" base_type then
    let bits := String.mk (base_type.data.drop 3)
    let f := if pyIsDigit bits then "toInt" ++ bits ++ "OrNull" else "toInt64OrNull"
    f ++ "(" ++ expr ++ ")"
  else if strStarts "Float" base_type then
    "toFloat64OrNull(" ++ expr ++ ")"
  else "nullIf(" ++ expr ++ ", " ++ sq ++ sq ++ ")"

/-- `_build_value_expr` (`migrator.py`). -/
def build_value_expr (path : String) (column_type : String) : String :=
  let base_type := unwrap_nullable column_type
  if strStarts "epoch_ms:" path then
    let p := pyStrip (String.mk (path.data.drop 9))
    "fromUnixTimestamp64Milli(toInt64OrNull(JSON_VALUE(raw, " ++ sq ++
      normalize_json_path p ++ sq ++ ")))"
  else
    coerce_expression ("JSON_VALUE(raw, " ++ sq ++ normalize_json_path path ++
      sq ++ ")") base_type

/-- `_build_json_extract_path` (`migrator.py`). -/
def build_json_extract_path (path : String) : List String :=
  let p1 := if strStarts "$" path then String.mk (path.data.drop 1) else path
  let p2 := pyStripChar '.' p1
  if p2 == "" then []
  else (splitChar '.' p2).filter (fun part => !(part == ""))

/-- `_array_extract_expr` (`migrator.py`). -/
def array_extract_expr (path : String) (column_type : String) : String :=
  match build_json_extract_path path with
  | [] => "CAST([] AS " ++ column_type ++ ")"
  | [p] => "JSONExtract(raw, " ++ sq ++ p ++ sq ++ ", " ++ sq ++ column_type ++
      sq ++ ")"
  | p0 :: p1 :: rest =>
    let mids := (p1 :: rest).dropLast
    let lastP := (p1 :: rest).getLast?.getD ""
    let expr0 := "JSONExtractRaw(raw, " ++ sq ++ p0 ++ sq ++ ")"
    let expr1 := mids.foldl
      (fun e part => "JSONExtractRaw(" ++ e ++ ", " ++ sq ++ part ++ sq ++ ")")
      expr0
    "JSONExtract(" ++ expr1 ++ ", " ++ sq ++ lastP ++ sq ++ ", " ++ sq ++
      column_type ++ sq ++ ")"

/-- One path's expression in the scalar branch of `_build_column_expr`
(`__`-prefixed paths name a raw-table column, guarded). -/
def column_path_expr (column_type : String) (path : String) :
    Except String String :=
  if strStarts "__" path then do
    let source_col := String.mk (path.data.drop 2)
    let _ ← require_identifier source_col
    pure source_col
  else pure (build_value_expr path column_type)

/-- One path's expression in the array branch of `_build_column_expr`. -/
def column_path_expr_arr (base_type : String) (path : String) :
    Except String String :=
  if strStarts "__" path then do
    let source_col := String.mk (path.data.drop 2)
    let _ ← require_identifier source_col
    pure source_col
  else pure (array_extract_expr path base_type)

/-- `_build_column_expr` (`migrator.py`): empty path list → NULL cast;
array-typed target combines per-path extracts with nested `ifNull`
terminated by `[]`; scalar target combines with `coalesce`, a single path
standing alone.  A guard failure on a `__` path propagates. -/
def build_column_expr (column_type : String) (json_path : Option String) :
    Except String String := do
  let paths := split_paths json_path
  if paths.isEmpty then
    pure ("CAST(NULL AS " ++ column_type ++ ")")
  else
    let base_type := unwrap_nullable column_type
    if strStarts "Array(" base_type then do
      let exprs ← paths.mapM (column_path_expr_arr base_type)
      let combined := (exprs.drop 1).foldl
        (fun c e => "ifNull(" ++ c ++ ", " ++ e ++ ")") (exprs.headD "")
      pure ("ifNull(" ++ combined ++ ", [])")
    else do
      let exprs ← paths.mapM (column_path_expr column_type)
      if exprs.length == 1 then pure (exprs.headD "")
      else pure ("coalesce(" ++ joinSep ", " exprs ++ ")")

/- ------------------------------------------------------------------
One puller cycle (`run_once` / `run_loop`, `puller.py`).
------------------------------------------------------------------ -/

/-- Observable behaviour of one enabled source within a cycle: which of the
steps of the per-source body of `run_once` raise.  `indexRuns` lists the
indices discovered for incremental processing paired with a flag telling
whether `_process_index` raises for that index. -/
structure SrcSpec where
  sid : Nat
  storageFails : Bool
  hasJob : Bool
  jobFails : Bool
  discoveryFails : Bool
  indexRuns : List (String × Bool)
deriving DecidableEq, Repr

/-- Observable effects of one cycle. -/
inductive CEvent where
  | heartbeat (status : String)
  | storageOk (sid : Nat)
  | storageError (sid : Nat)
  | backfillDone (sid : Nat)
  | backfillMarkedFailed (sid : Nat)
  | indexIdle (sid : Nat) (index : String)
  | indexError (sid : Nat) (index : String)
deriving DecidableEq, Repr

/-- `_process_incremental` after a successful index discovery: every index
is processed inside its own `try/except`, so a failing index records an
`ingestion_state` error (`set_ingestion_status 'error'`) and the loop moves
on to the next index. -/
def incrementalEvents (sid : Nat) (runs : List (String × Bool)) : List CEvent :=
  runs.map (fun r => if r.2 then .indexError sid r.1 else .indexIdle sid r.1)

/-- The per-source body of the `run_once` loop: `_ensure_project_storage`
re-raises (nothing catches it in `run_once`), `_process_backfill` is wrapped
in `try/except` that marks the job failed, `_process_incremental`'s own
`list_indices` call sits outside any handler so a discovery failure also
propagates.  Returns the source's events and whether an exception escaped
(aborting the rest of the cycle). -/
def sourceEvents (s : SrcSpec) : List CEvent × Bool :=
  if s.storageFails then ([.storageError s.sid], true)
  else if s.hasJob then
    if s.jobFails then ([.storageOk s.sid, .backfillMarkedFailed s.sid], false)
    else ([.storageOk s.sid, .backfillDone s.sid], false)
  else if s.discoveryFails then ([.storageOk s.sid], true)
  else (.storageOk s.sid :: incrementalEvents s.sid s.indexRuns, false)

/-- The source loop of `run_once`: sources are processed in order until one
aborts the cycle, whose exception propagates out of the loop. -/
def runSources : List SrcSpec → List CEvent × Bool
  | [] => ([], false)
  | s :: rest =>
    if (sourceEvents s).2 then ((sourceEvents s).1, true)
    else ((sourceEvents s).1 ++ (runSources rest).1, (runSources rest).2)

/-- `run_once`: heartbeat `running`, the source loop, and — only when no
exception escaped — the trailing heartbeat `idle`.  The boolean reports an
escaped exception (caught and logged by `run_loop`). -/
def run_once (sources : List SrcSpec) : List CEvent × Bool :=
  (.heartbeat "running" :: (runSources sources).1 ++
     (if (runSources sources).2 then [] else [.heartbeat "idle"]),
   (runSources sources).2)

/-- `run_loop` for `n` remaining cycles starting at cycle index `i`:
each iteration calls `run_once` inside `try/except Exception` — the
exception is logged and the loop proceeds to the next cycle regardless. -/
def run_loop (cycles : Nat → List SrcSpec) : (n : Nat) → (i : Nat) →
    List (List CEvent × Bool)
  | 0, _ => []
  | n + 1, i => run_once (cycles i) :: run_loop cycles n (i + 1)

/-- Does a cycle event pertain to the given source id? -/
def touchesSource (sid : Nat) : CEvent → Bool
  | .heartbeat _ => false
  | .storageOk s => s == sid
  | .storageError s => s == sid
  | .backfillDone s => s == sid
  | .backfillMarkedFailed s => s == sid
  | .indexIdle s _ => s == sid
  | .indexError s _ => s == sid

/-- A source that does not abort the cycle: its project storage step
succeeds and, when it has no backfill job, its incremental index discovery
succeeds. -/
def sourceOk (s : SrcSpec) : Bool :=
  !s.storageFails && (s.hasJob || !s.discoveryFails)

/- ------------------------------------------------------------------
Backfill processing (`_process_backfill` / `_process_index`,
`puller.py`), as a trace of effects.  The status oracle `oracle n` is
the answer of the n-th `_is_active()` read (`fetch_backfill_job_by_id`
reporting a status in pending/running); `batches index` is the sequence
of non-empty hit batches the upstream returns for that index.
------------------------------------------------------------------ -/

/-- One non-empty batch of search hits, reduced to what the loop uses: the
number of rows built from it and the last hit's extracted timestamp, sort
values (`[]` = absent) and id. -/
structure Batch where
  rows : Nat
  lastTs : Option Int
  lastSort : List Json
  lastId : Option String

/-- Observable effects of backfill processing.  `statusCheck` records each
`_is_active()` read with its answer; `processCall` records an invocation
of `_process_index` with the window and resume cursor it was given;
`insert` is a warehouse write; `bfCheckpoint` is
`update_backfill_checkpoint`; `setStatus` is `set_backfill_status`.
(PIT open/close are not modelled — they mutate nothing.) -/
inductive Eff where
  | statusCheck (active : Bool)
  | processCall (index : String) (startTs endTs : Option Int)
      (searchAfter : List Json)
  | insert (rows : Nat)
  | bfCheckpoint (index : Option String) (ts : Option Int) (sort : List Json)
      (id : Option String)
  | setStatus (status : String)

/-- Lexicographic code-point comparison of character lists (the order
Python uses for `str < str`). -/
def charListLt : List Char → List Char → Bool
  | _, [] => false
  | [], _ :: _ => true
  | a :: as, b :: bs =>
    if a.toNat < b.toNat then true
    else if b.toNat < a.toNat then false
    else charListLt as bs

/-- Python string `<`. -/
def strLt (a b : String) : Bool := charListLt a.data b.data

/-- The paged search loop of `_process_index` in its backfill
instantiation (`is_backfill=True`, `cancel_check=_is_active`): each
iteration re-reads the job status before searching, stops on an inactive
status or an empty batch, and otherwise inserts the rows (when any) and
updates the backfill checkpoint.  Returns the effects and the advanced
oracle counter.  The `search_after` advancement is internal to the search
body and not an effect. -/
def processIndexGo (index : String) (oracle : Nat → Bool) :
    (batches : List Batch) → (cnt : Nat) → List Eff × Nat
  | batches, cnt =>
    if !(oracle cnt) then ([.statusCheck false], cnt + 1)
    else
      match batches with
      | [] => ([.statusCheck true], cnt + 1)
      | b :: bs =>
        let ins : List Eff := if b.rows > 0 then [.insert b.rows] else []
        let r := processIndexGo index oracle bs (cnt + 1)
        (.statusCheck true ::
          (ins ++ .bfCheckpoint (some index) b.lastTs b.lastSort b.lastId ::
            r.1), r.2)

/-- `_process_index` entry in backfill mode, recording its arguments. -/
def processIndex (index : String) (startTs endTs : Option Int)
    (searchAfter : List Json) (oracle : Nat → Bool) (batches : List Batch)
    (cnt : Nat) : List Eff × Nat :=
  let r := processIndexGo index oracle batches cnt
  (.processCall index startTs endTs searchAfter :: r.1, r.2)

/-- A backfill job row as read when the job was claimed (the in-memory
dict `job` of `_process_backfill`, never refreshed). -/
structure BackfillJob where
  status : String
  startTs : Option Int
  endTs : Option Int
  lastIndexName : Option String
  lastTs : Option Int
  lastSortJson : List Json
  lastId : Option String

/-- The index loop of `_process_backfill`: before each index the status is
re-read; indices lexicographically below the resume index are skipped; the
resume cursor for an index equal to `resumeIdx` is the in-memory job's
`last_sort_json`/`last_ts` and `job.start_ts` otherwise; after each index
the status is re-read, the checkpoint advances to the next index with the
intra-index cursor cleared, and `resume_index` is reassigned to that next
index; after the last index the job is completed if still active. -/
def processBackfillGo (job : BackfillJob) (oracle : Nat → Bool)
    (batches : String → List Batch) :
    (pending : List String) → (resumeIdx : Option String) → (cnt : Nat) →
    List Eff
  | [], _, cnt =>
    if oracle cnt then [.statusCheck true, .setStatus "completed"]
    else [.statusCheck false]
  | index :: rest, resumeIdx, cnt =>
    if !(oracle cnt) then [.statusCheck false]
    else if (match resumeIdx with
        | some r => !(r == "") && strLt index r
        | none => false) then
      .statusCheck true ::
        processBackfillGo job oracle batches rest resumeIdx (cnt + 1)
    else
      let rsort := if resumeIdx = some index then job.lastSortJson else []
      let rts := if resumeIdx = some index then job.lastTs else job.startTs
      let pi := processIndex index rts job.endTs rsort oracle (batches index)
        (cnt + 1)
      let nextIdx := rest.head?
      .statusCheck true :: pi.1 ++
        (if oracle pi.2 then
          .statusCheck true :: .bfCheckpoint nextIdx none [] none ::
            processBackfillGo job oracle batches rest nextIdx (pi.2 + 1)
        else [.statusCheck false])

/-- `_process_backfill`: transition a pending job to running, resolve the
resume index (dropped when not among the discovered indices), complete
immediately on an empty discovery, else run the index loop. -/
def processBackfill (job : BackfillJob) (indices : List String)
    (oracle : Nat → Bool) (batches : String → List Batch) : List Eff :=
  let initEffs : List Eff :=
    if job.status == "pending" then [.setStatus "running"] else []
  if indices.isEmpty then
    initEffs ++ [.setStatus "completed", .bfCheckpoint none none [] none]
  else
    let resume0 : Option String :=
      match job.lastIndexName with
      | some r => if !(r == "") && !(indices.contains r) then none else some r
      | none => none
    initEffs ++ processBackfillGo job oracle batches indices resume0 0

/-- Is the effect an observed inactive status? -/
def isFalseCheck : Eff → Bool
  | .statusCheck false => true
  | _ => false

/-- Is the effect a warehouse write, a checkpoint update, or a mutation of
the job's status? -/
def isJobWrite : Eff → Bool
  | .insert _ => true
  | .bfCheckpoint .. => true
  | .setStatus _ => true
  | _ => false

/-- After the first observed inactive status, the trace contains at most
one further effect, itself another inactive status check — in particular
no further warehouse write, checkpoint update, status mutation, or search
call. -/
def cancelClean : List Eff → Bool
  | [] => true
  | e :: rest =>
    if isFalseCheck e then rest.all isFalseCheck && decide (rest.length ≤ 1)
    else cancelClean rest

/-- Gate automaton: scans the trace carrying the answer of the most recent
status check; a write is allowed only under a `true` gate.  Returns the
final gate, or `none` on a violation. -/
def gatedRun : Bool → List Eff → Option Bool
  | g, [] => some g
  | _, .statusCheck b :: rest => gatedRun b rest
  | g, e :: rest =>
    if isJobWrite e && !g then none else gatedRun g rest

/-- The `_process_index` arguments recorded in a trace. -/
def callArgs : Eff → Option (String × Option Int × Option Int × List Json)
  | .processCall i s e sa => some (i, s, e, sa)
  | _ => none

/-- The spec's backfill-resume scenario: a running job that previously
checkpointed inside `logs-02`. -/
def jobW : BackfillJob :=
  ⟨"running", some 100, some 200, some "logs-02", some 150,
   [Json.num 1700000000000, Json.str "z"], some "z"⟩

/- ==================================================================
Theorems.
================================================================== -/

section RequestTheorems

/-- Retry loop: if the first `k` attempts fail (transport error or 4xx/5xx
status alike) and attempt `k` succeeds, the loop performs `k + 1` attempts
and sleeps `backoff * 2 ^ j` after failing attempt `j`. -/
theorem request_go_success (backoff : ℚ) (att : Nat → Attempt) (k : Nat) :
    ∀ r i : Nat, k < r → (∀ j, j < k → attemptFails (att (i + j)) = true) →
      attemptFails (att (i + k)) = false →
      request_go backoff att r i =
        (.success (att (i + k)) (i + k),
         (List.range k).map (fun j => backoff * 2 ^ (i + j))) := by
  induction k with
  | zero =>
      intro r i hk _hall hok
      obtain ⟨r, rfl⟩ : ∃ s, r = s + 1 := ⟨r - 1, by omega⟩
      rw [Nat.add_zero] at hok
      simp [request_go, hok]
  | succ k ih =>
      intro r i hk hall hok
      obtain ⟨r, rfl⟩ : ∃ s, r = s + 1 := ⟨r - 1, by omega⟩
      have h0 : attemptFails (att (i + 0)) = true := hall 0 (by omega)
      rw [Nat.add_zero] at h0
      have hr : r ≠ 0 := by omega
      have hrec := ih r (i + 1) (by omega)
        (fun j hj => by
          have := hall (j + 1) (by omega)
          rwa [show i + (j + 1) = i + 1 + j by omega] at this)
        (by rwa [show i + 1 + k = i + (k + 1) by omega])
      simp only [request_go, h0, if_true, if_neg hr, hrec]
      refine Prod.ext ?_ ?_
      · simp [show i + 1 + k = i + (k + 1) by omega]
      · simp only [List.range_succ_eq_map, List.map_cons, List.map_map]
        rw [Nat.add_zero]
        refine congrArg (backoff * 2 ^ i :: ·) ?_
        refine List.map_congr_left (fun j _ => ?_)
        simp [Function.comp, show i + 1 + j = i + (j + 1) by omega]

/-- Retry loop: if every one of the `maxRetries` attempts fails, the final
attempt's exception is re-raised and `maxRetries - 1` back-off sleeps were
performed. -/
theorem request_go_allfail (backoff : ℚ) (att : Nat → Attempt) :
    ∀ r i : Nat, 0 < r → (∀ j, j < r → attemptFails (att (i + j)) = true) →
      request_go backoff att r i =
        (.raised (att (i + (r - 1))) (i + (r - 1)),
         (List.range (r - 1)).map (fun j => backoff * 2 ^ (i + j))) := by
  intro r
  induction r with
  | zero => omega
  | succ r ih =>
      intro i _ hall
      have h0 : attemptFails (att (i + 0)) = true := hall 0 (by omega)
      rw [Nat.add_zero] at h0
      by_cases hr : r = 0
      · subst hr
        simp [request_go, h0]
      · have hrec := ih (i + 1) (by omega)
          (fun j hj => by
            have := hall (j + 1) (by omega)
            rwa [show i + (j + 1) = i + 1 + j by omega] at this)
        simp only [request_go, h0, if_true, if_neg hr, hrec]
        refine Prod.ext ?_ ?_
        · simp [show i + 1 + (r - 1) = i + (r + 1 - 1) by omega]
        · obtain ⟨s, rfl⟩ : ∃ s, r = s + 1 := ⟨r - 1, by omega⟩
          simp only [Nat.add_sub_cancel, List.range_succ_eq_map, List.map_cons,
            List.map_map, Nat.add_zero]
          refine congrArg (backoff * 2 ^ i :: ·) ?_
          refine List.map_congr_left (fun j _ => ?_)
          simp [Function.comp, show i + 1 + j = i + (j + 1) by omega]

/-- Claim C1, counterexample: with `max_retries = 3`, `backoff_base = 1` and
the upstream answering HTTP 400 (a semantic 4xx) on every attempt,
`_request` performs three attempts with back-off sleeps of 1s and 2s before
surfacing the `HTTPError` — the 4xx is retried, not surfaced immediately,
because `raise_for_status`'s `HTTPError` is itself a
`requests.RequestException` and is caught by the retry loop. -/
theorem request_4xx_retried_counterexample :
    request 3 1 (fun _ => .status 400) = (.raised (.status 400) 2, [1, 2]) ∧
    ([1, 2] : List ℚ) ≠ [] := by
  refine ⟨?_, by decide⟩
  have h := request_go_allfail 1 (fun _ => .status 400) 3 0 (by omega)
    (fun j _ => by simp [attemptFails])
  rw [request, h]
  norm_num
  decide

/-- Claim C1 (amended): every failing upstream attempt — transport-level
error or HTTP 4xx/5xx status alike — is retried, up to `max_retries`
attempts in total with a sleep of `backoff_base * 2 ^ attempt` between
attempts; a semantic 4xx on search is surfaced only after the final
attempt, not immediately. -/
theorem request_retry_amended (maxRetries : Nat) (backoff : ℚ)
    (att : Nat → Attempt) :
    (∀ k, k < maxRetries → (∀ j, j < k → attemptFails (att j) = true) →
      attemptFails (att k) = false →
      request maxRetries backoff att =
        (.success (att k) k, (List.range k).map (fun j => backoff * 2 ^ j))) ∧
    (0 < maxRetries → (∀ j, j < maxRetries → attemptFails (att j) = true) →
      request maxRetries backoff att =
        (.raised (att (maxRetries - 1)) (maxRetries - 1),
         (List.range (maxRetries - 1)).map (fun j => backoff * 2 ^ j))) := by
  constructor
  · intro k hk hall hok
    have h := request_go_success backoff att k maxRetries 0 hk
      (fun j hj => by simpa using hall j hj) (by simpa using hok)
    rw [request, h]
    simp
  · intro hpos hall
    have h := request_go_allfail backoff att maxRetries 0 hpos
      (fun j hj => by simpa using hall j hj)
    rw [request, h]
    simp

/-- Attempt pattern used by the witness: a transport error, then a 503,
then a 200. -/
def attW : Nat → Attempt := fun i =>
  if i = 0 then .transportErr else if i = 1 then .status 503 else .status 200

/-- Witness for `request_retry_amended` at concrete inputs. -/
theorem request_retry_amended_witness :
    request 3 1 attW = (.success (.status 200) 2, [1, 2]) ∧
    request 2 1 (fun _ => .status 429) = (.raised (.status 429) 1, [1]) := by
  constructor
  · have h := (request_retry_amended 3 1 attW).1 2 (by omega)
      (fun j hj => by interval_cases j <;> decide) (by decide)
    rw [h]
    norm_num [attW, List.range_succ]
  · have h := (request_retry_amended 2 1 (fun _ => .status 429)).2 (by omega)
      (fun j _ => by decide)
    rw [h]
    norm_num [List.range_succ]

end RequestTheorems

section RetryClickhouseTheorems

/-- Claim C10: when the effective `max_retries` is 0 — a value the
configuration validation accepts, because `_apply_puller_config` applies
`minimum=0` to `max_retries` — `_retry_clickhouse` iterates `range(0)`,
never calls `insert_rows`, and returns `None` without raising, so any
batch of rows (non-empty ones included) is silently dropped. -/
theorem retry_clickhouse_zero_drops (failsAt : Nat → Bool) (rows : List String)
    (current : Int) :
    retry_clickhouse 0 failsAt rows = (.fellThrough, []) ∧
    apply_config_value current (some 0) 0 = 0 := by
  refine ⟨rfl, ?_⟩
  simp [apply_config_value]

end RetryClickhouseTheorems

section IdentifierTheorems

/-- List-level reading of the regex match of `identifierMatches`. -/
theorem matchesAux_iff (m : List Char) :
    ((!m.isEmpty && m.all isIdentChar) ||
      ((m.getLast? == some '\n') && !m.dropLast.isEmpty &&
        m.dropLast.all isIdentChar)) = true ↔
      ((m ≠ [] ∧ ∀ c ∈ m, isIdentChar c = true) ∨
       (∃ w, m = w ++ ['\n'] ∧ w ≠ [] ∧ ∀ c ∈ w, isIdentChar c = true)) := by
  rcases List.eq_nil_or_concat' m with rfl | ⟨w0, c, rfl⟩
  · simp
  · simp only [List.getLast?_concat, List.dropLast_concat, Bool.or_eq_true,
      Bool.and_eq_true, beq_iff_eq, Option.some.injEq, List.all_eq_true,
      Bool.not_eq_true', List.isEmpty_eq_false, ne_eq]
    constructor
    · rintro (⟨-, ha⟩ | ⟨⟨hc, he⟩, ha⟩)
      · exact .inl ⟨by simp, ha⟩
      · subst hc
        exact .inr ⟨w0, rfl, he, ha⟩
    · rintro (⟨-, ha⟩ | ⟨w, hw, hne, ha⟩)
      · exact .inl ⟨by simp, ha⟩
      · have hc : c = '\n' := by
          have := congrArg List.getLast? hw
          simpa [List.getLast?_concat] using this
        have hw0 : w0 = w := by
          have := congrArg List.dropLast hw
          simpa [List.dropLast_concat] using this
        subst hc
        subst hw0
        exact .inr ⟨⟨rfl, hne⟩, ha⟩

/-- Characterization of the Python regex match: it accepts exactly the
nonempty all-`[A-Za-z0-9_]` strings, plus those followed by one trailing
newline (Python's `$`). -/
theorem identifierMatches_iff (s : String) :
    identifierMatches s = true ↔
      ((s.data ≠ [] ∧ ∀ c ∈ s.data, isIdentChar c = true) ∨
       (∃ w, s.data = w ++ ['\n'] ∧ w ≠ [] ∧ ∀ c ∈ w, isIdentChar c = true)) := by
  unfold identifierMatches
  exact matchesAux_iff s.data

/-- `require_identifier` succeeds (returning the input unchanged) exactly
when the regex matches. -/
theorem require_identifier_ok_iff (s : String) :
    require_identifier s = .ok s ↔ identifierMatches s = true := by
  unfold require_identifier
  by_cases h : identifierMatches s = true
  · simp [h]
  · simp [h]

/-- If `require_identifier` returns `.ok`, the regex matched. -/
theorem require_identifier_ok_matches (s : String) (v : String)
    (h : require_identifier s = .ok v) : identifierMatches s = true := by
  unfold require_identifier at h
  by_cases hm : identifierMatches s = true
  · exact hm
  · rw [if_neg hm] at h
    exact absurd h (by simp)

/-- If `quote_identifier` returns `.ok`, the regex matched. -/
theorem quote_identifier_ok_matches (s : String) (v : String)
    (h : quote_identifier s = .ok v) : identifierMatches s = true := by
  unfold quote_identifier at h
  cases hr : require_identifier s with
  | error e => rw [hr] at h; exact absurd h (by simp [Except.map])
  | ok w => exact require_identifier_ok_matches s w hr

/-- A suffix-extended name loses the trailing-newline loophole: if `pid`
contains any non-identifier character, `pid ++ t` fails the guard whenever
`t` is nonempty, all-identifier, and does not end in a newline. -/
theorem identifierMatches_append_false (pid t : String) (c : Char)
    (hc : c ∈ pid.data) (hbad : isIdentChar c = false)
    (ht : t.data ≠ []) (_hta : ∀ d ∈ t.data, isIdentChar d = true)
    (htl : t.data.getLast? ≠ some '\n') :
    identifierMatches (pid ++ t) = false := by
  by_contra h
  have hmt : identifierMatches (pid ++ t) = true := by
    cases hb : identifierMatches (pid ++ t) with
    | true => rfl
    | false => exact absurd hb h
  have h' := (identifierMatches_iff (pid ++ t)).mp hmt
  have hdata : (pid ++ t).data = pid.data ++ t.data := String.data_append ..
  rcases h' with ⟨_, hall⟩ | ⟨w, hw, _, hwall⟩
  · have : isIdentChar c = true :=
      hall c (by rw [hdata]; exact List.mem_append_left _ hc)
    rw [this] at hbad
    exact Bool.noConfusion hbad
  · rw [hdata] at hw
    have hlast : (pid.data ++ t.data).getLast? = some '\n' := by
      rw [hw]; exact List.getLast?_concat ..
    rw [List.getLast?_append_of_ne_nil _ ht] at hlast
    exact htl hlast

/-- If the regex matches `pid ++ t` for a suffix `t` that is nonempty,
all-identifier and does not end in `'\n'`, then every character of `pid`
is an identifier character. -/
theorem identifierMatches_append_ident (pid t : String)
    (ht : t.data ≠ []) (hta : ∀ d ∈ t.data, isIdentChar d = true)
    (htl : t.data.getLast? ≠ some '\n')
    (h : identifierMatches (pid ++ t) = true) :
    ∀ c ∈ pid.data, isIdentChar c = true := by
  intro c hc
  by_contra hbad
  have hbad' : isIdentChar c = false := by
    cases hb : isIdentChar c with
    | true => exact absurd hb hbad
    | false => rfl
  have := identifierMatches_append_false pid t c hc hbad' ht hta htl
  rw [this] at h
  exact Bool.noConfusion h

/-- Claim C9, counterexample: `"a\n"` contains the byte `'\n'`, which is
outside `[A-Za-z0-9_]`, yet `require_identifier` accepts it (Python's `$`
matches before a trailing newline), and a field-registry column named
`"k\n"` therefore flows into an emitted ALTER statement unrejected. -/
theorem identifier_guard_counterexample :
    require_identifier "a\n" = .ok "a\n" ∧
    ("a\n".data.all isIdentChar = false) ∧
    field_registry_statement "demo" "_bronze" "os_events_raw" "k\n"
        "Nullable(String)" none "ALIAS" =
      .ok ("ALTER TABLE `demo_bronze`.`os_events_raw`" ++
           " ADD COLUMN IF NOT EXISTS `k\n` Nullable(String)") := by
  refine ⟨rfl, rfl, rfl⟩

/-- Claim C9 (amended): `require_identifier` fails exactly when the name is
empty or contains a character outside `[A-Za-z0-9_]` *other than a single
trailing newline*, which Python's `$` anchor lets through.  Consequently,
`ensure_project_storage` still fails before emitting any SQL for every
project id containing a non-identifier byte (the derived database names
append `_bronze`/`_gold`, moving a trailing newline inside the name), while
a successfully built field-registry statement guarantees its project id is
entirely `[A-Za-z0-9_]` and its column name is `[A-Za-z0-9_]` save possibly
one trailing newline. -/
theorem identifier_guard_amended :
    (∀ s : String, require_identifier s = .ok s ↔
      ((s.data ≠ [] ∧ ∀ c ∈ s.data, isIdentChar c = true) ∨
       (∃ w, s.data = w ++ ['\n'] ∧ w ≠ [] ∧ ∀ c ∈ w, isIdentChar c = true))) ∧
    (∀ (pid : String) (c : Char), c ∈ pid.data → isIdentChar c = false →
      (ensure_project_storage pid).1 = [] ∧
      (ensure_project_storage pid).2.isSome = true) ∧
    (∀ pid suffix tn cn ct ex mode stmt,
      (suffix = "_bronze" ∨ suffix = "_gold") →
      field_registry_statement pid suffix tn cn ct ex mode = .ok stmt →
      (containsDot tn = false → ∀ c ∈ pid.data, isIdentChar c = true) ∧
      ((cn.data ≠ [] ∧ ∀ c ∈ cn.data, isIdentChar c = true) ∨
       (∃ w, cn.data = w ++ ['\n'] ∧ w ≠ [] ∧ ∀ c ∈ w, isIdentChar c = true))) := by
  refine ⟨fun s => (require_identifier_ok_iff s).trans (identifierMatches_iff s),
    ?_, ?_⟩
  · intro pid c hc hbad
    have hq : identifierMatches (pid ++ "_bronze") = false :=
      identifierMatches_append_false pid "_bronze" c hc hbad (by decide)
        (by decide) (by decide)
    have hqe : quote_identifier (pid ++ "_bronze") =
        .error ("Invalid identifier: " ++ (pid ++ "_bronze")) := by
      unfold quote_identifier require_identifier
      rw [hq]
      rfl
    unfold ensure_project_storage
    cases hreq : require_identifier pid with
    | error e => simp
    | ok v => simp [hqe]
  · intro pid suffix tn cn ct ex mode stmt hsuf h
    unfold field_registry_statement at h
    cases h1 : require_identifier pid with
    | error e =>
        rw [h1] at h
        exact absurd h (by simp [Bind.bind, Except.bind])
    | ok v1 =>
    rw [h1] at h
    simp only [Bind.bind, Except.bind] at h
    by_cases hdot : containsDot tn = true
    all_goals simp only [hdot, Bool.false_eq_true, if_true, if_false,
      reduceIte] at h
    · -- dotted table name: the target db (and hence the project id) is not
      -- quoted, so only the column-name conclusion is available.
      refine ⟨fun hcontra => absurd hdot (by simp [hcontra]), ?_⟩
      cases h2 : require_identifier (splitDotHead tn) with
      | error e => rw [h2] at h; exact absurd h (by simp [Except.bind])
      | ok v2 =>
      rw [h2] at h
      simp only [Except.bind] at h
      cases h3 : require_identifier (splitDotTail tn) with
      | error e => rw [h3] at h; exact absurd h (by simp [Except.bind])
      | ok v3 =>
      rw [h3] at h
      simp only [Except.bind] at h
      cases h4 : require_identifier cn with
      | error e => rw [h4] at h; exact absurd h (by simp [Except.bind])
      | ok v4 =>
      exact (identifierMatches_iff cn).mp (require_identifier_ok_matches cn v4 h4)
    · -- plain table name: the target db `pid ++ suffix` is quoted.
      cases h2 : require_identifier tn with
      | error e => rw [h2] at h; exact absurd h (by simp [Except.bind])
      | ok v2 =>
      rw [h2] at h
      simp only [Except.bind] at h
      cases h3 : require_identifier cn with
      | error e => rw [h3] at h; exact absurd h (by simp [Except.bind])
      | ok v3 =>
      rw [h3] at h
      simp only [Except.bind] at h
      have hcn := (identifierMatches_iff cn).mp (require_identifier_ok_matches cn v3 h3)
      refine ⟨fun _ => ?_, hcn⟩
      unfold resolve_target_table at h
      simp only [hdot, Bool.false_eq_true, if_false, reduceIte] at h
      cases h4 : quote_identifier (pid ++ suffix) with
      | error e => rw [h4] at h; exact absurd h (by simp [Bind.bind, Except.bind])
      | ok v4 =>
      have hm := quote_identifier_ok_matches (pid ++ suffix) v4 h4
      rcases hsuf with rfl | rfl
      · exact identifierMatches_append_ident pid "_bronze" (by decide) (by decide)
          (by decide) hm
      · exact identifierMatches_append_ident pid "_gold" (by decide) (by decide)
          (by decide) hm

/-- Witness for `identifier_guard_amended` at concrete inputs. -/
theorem identifier_guard_amended_witness :
    require_identifier "abc" = .ok "abc" ∧
    (ensure_project_storage "a b").1 = [] ∧
    (∀ c ∈ ("demo" : String).data, isIdentChar c = true) := by
  refine ⟨?_, ?_, ?_⟩
  · exact (identifier_guard_amended.1 "abc").mpr (.inl ⟨by decide, by decide⟩)
  · exact (identifier_guard_amended.2.1 "a b" ' ' (by decide) (by decide)).1
  · exact (identifier_guard_amended.2.2 "demo" "_bronze" "os_events_raw" "k"
      "Nullable(String)" none "ALIAS"
      ("ALTER TABLE `demo_bronze`.`os_events_raw`" ++
        " ADD COLUMN IF NOT EXISTS `k` Nullable(String)")
      (.inl rfl) rfl).1 (by decide)

end IdentifierTheorems

section TimestampTheorems

/-- Every year has at least 365 days. -/
theorem daysInYear_ge (y : Nat) : 365 ≤ daysInYear y := by
  unfold daysInYear
  split <;> omega

/-- `yearGo` peels whole years: with enough fuel it returns a year and a
day-of-year remainder that re-sum to the input. -/
theorem yearGo_spec : ∀ (fuel y n : Nat), n < fuel →
    (yearGo fuel y n).2 < daysInYear (yearGo fuel y n).1 ∧
    spanDays y ((yearGo fuel y n).1 - y) + (yearGo fuel y n).2 = n ∧
    y ≤ (yearGo fuel y n).1 := by
  intro fuel
  induction fuel with
  | zero => omega
  | succ fuel ih =>
    intro y n hn
    by_cases h : n < daysInYear y
    · simp only [yearGo, if_pos h]
      refine ⟨h, ?_, le_refl y⟩
      simp [spanDays]
    · have hd := daysInYear_ge y
      have hrec := ih (y + 1) (n - daysInYear y) (by omega)
      simp only [yearGo, if_neg h]
      set r := yearGo fuel (y + 1) (n - daysInYear y) with hr
      obtain ⟨h1, h2, h3⟩ := hrec
      refine ⟨h1, ?_, by omega⟩
      have hk : r.1 - y = (r.1 - (y + 1)) + 1 := by omega
      rw [hk]
      show daysInYear y + spanDays (y + 1) (r.1 - (y + 1)) + r.2 = n
      omega

/-- `spanDays` is additive over year ranges. -/
theorem spanDays_add (y : Nat) : ∀ k j : Nat,
    spanDays y (k + j) = spanDays y k + spanDays (y + k) j := by
  intro k
  induction k generalizing y with
  | zero => simp [spanDays]
  | succ k ih =>
    intro j
    have : k + 1 + j = (k + j) + 1 := by omega
    rw [this]
    show daysInYear y + spanDays (y + 1) (k + j) = _
    rw [ih (y + 1) j]
    simp only [spanDays]
    rw [show y + (k + 1) = y + 1 + k from by omega]
    omega

/-- Lower bound on `spanDays`. -/
theorem spanDays_ge (y : Nat) : ∀ k : Nat, 365 * k ≤ spanDays y k := by
  intro k
  induction k generalizing y with
  | zero => simp [spanDays]
  | succ k ih =>
    have h1 := daysInYear_ge y
    have h2 := ih (y + 1)
    simp only [spanDays]
    omega

/-- `monthGo` peels month lengths: the skipped prefix plus the 0-based day
re-sum to the input, and the day stays within its month. -/
theorem monthGo_spec : ∀ (lens : List Nat) (m n : Nat), n < lens.sum →
    ((lens.take ((monthGo lens m n).1 - m)).sum + ((monthGo lens m n).2 - 1) = n ∧
     m ≤ (monthGo lens m n).1 ∧
     (monthGo lens m n).1 - m < lens.length ∧
     1 ≤ (monthGo lens m n).2 ∧
     (monthGo lens m n).2 ≤ lens.getD ((monthGo lens m n).1 - m) 31) := by
  intro lens
  induction lens with
  | nil => intro m n hn; simp at hn
  | cons len rest ih =>
    intro m n hn
    by_cases h : n < len
    · simp only [monthGo, if_pos h]
      simp only [Nat.sub_self, List.take_zero, List.sum_nil, List.getD_cons_zero]
      refine ⟨by omega, le_refl m, by simp, by omega, by omega⟩
    · have hsum : List.sum (len :: rest) = len + rest.sum := by simp
      have hrec := ih (m + 1) (n - len) (by omega)
      simp only [monthGo, if_neg h]
      set r := monthGo rest (m + 1) (n - len) with hr
      obtain ⟨h1, h2, h3, h4, h5⟩ := hrec
      have hk : r.1 - m = (r.1 - (m + 1)) + 1 := by omega
      rw [hk]
      simp only [List.take_succ_cons, List.sum_cons, List.length_cons,
        List.getD_cons_succ]
      exact ⟨by omega, by omega, by omega, h4, h5⟩

/-- The month lengths of a year sum to its day count. -/
theorem monthLens_sum (leap : Bool) : (monthLens leap).sum = if leap then 366 else 365 := by
  cases leap <;> decide

/-- Specification of `dateOfDays` on the modelled range (1970-01-01 to
9999-12-31): it returns a valid civil date whose `daysOfDate` is the
original day count. -/
theorem dateOfDays_spec (n : Nat) (hn : n < spanDays 1970 8030) :
    daysOfDate (dateOfDays n).1 (dateOfDays n).2.1 (dateOfDays n).2.2 = n ∧
    1970 ≤ (dateOfDays n).1 ∧ (dateOfDays n).1 ≤ 9999 ∧
    1 ≤ (dateOfDays n).2.1 ∧ (dateOfDays n).2.1 ≤ 12 ∧
    1 ≤ (dateOfDays n).2.2 ∧
    (dateOfDays n).2.2 ≤
      (monthLens (isLeap (dateOfDays n).1)).getD ((dateOfDays n).2.1 - 1) 31 := by
  obtain ⟨hy1, hy2, hy3⟩ := yearGo_spec (n + 1) 1970 n (by omega)
  set yr := yearGo (n + 1) 1970 n with hyr
  have hylt : yr.1 - 1970 < 8030 := by
    by_contra hcon
    have h8030 : yr.1 - 1970 = 8030 + (yr.1 - 1970 - 8030) := by omega
    have := spanDays_add 1970 8030 (yr.1 - 1970 - 8030)
    rw [← h8030] at this
    have hge := spanDays_ge (1970 + 8030) (yr.1 - 1970 - 8030)
    omega
  have hsum : yr.2 < (monthLens (isLeap yr.1)).sum := by
    rw [monthLens_sum]
    have : daysInYear yr.1 = if isLeap yr.1 then 366 else 365 := rfl
    omega
  obtain ⟨hm1, hm2, hm3, hm4, hm5⟩ :=
    monthGo_spec (monthLens (isLeap yr.1)) 1 yr.2 hsum
  set md := monthGo (monthLens (isLeap yr.1)) 1 yr.2 with hmd
  have hlen : (monthLens (isLeap yr.1)).length = 12 := by
    cases h : isLeap yr.1 <;> rfl
  have hres : dateOfDays n = (yr.1, md.1, md.2) := by
    rw [dateOfDays]
  rw [hres]
  dsimp only
  constructor
  · unfold daysOfDate
    omega
  refine ⟨hy3, by omega, by omega, by omega, hm4, ?_⟩
  exact hm5


theorem digitVal_digitChar (k : Nat) (h : k < 10) : digitVal (digitChar k) = some k := by
  interval_cases k <;> rfl

theorem isDigitCh_digitChar (k : Nat) : isDigitCh (digitChar k) = true := by
  rcases k with _|_|_|_|_|_|_|_|_|k <;> rfl

theorem read2_digits (n : Nat) (h : n < 100) :
    read2 (digitChar (n / 10)) (digitChar (n % 10)) = some n := by
  simp only [read2, digitVal_digitChar _ (show n / 10 < 10 by omega),
    digitVal_digitChar _ (show n % 10 < 10 by omega), Option.pure_def,
    Option.bind_eq_bind, Option.some_bind, Option.some.injEq]
  omega

theorem read4_digits (n : Nat) (h : n < 10000) :
    read4 (digitChar (n / 1000)) (digitChar (n / 100 % 10)) (digitChar (n / 10 % 10))
      (digitChar (n % 10)) = some n := by
  simp only [read4, digitVal_digitChar _ (show n / 1000 < 10 by omega),
    digitVal_digitChar _ (show n / 100 % 10 < 10 by omega),
    digitVal_digitChar _ (show n / 10 % 10 < 10 by omega),
    digitVal_digitChar _ (show n % 10 < 10 by omega), Option.pure_def,
    Option.bind_eq_bind, Option.some_bind, Option.some.injEq]
  omega

theorem digitsVal_digits3 (n : Nat) (h : n < 1000) :
    digitsVal [digitChar (n / 100), digitChar (n / 10 % 10), digitChar (n % 10)] 0
      = some n := by
  simp only [digitsVal, digitVal_digitChar _ (show n / 100 < 10 by omega),
    digitVal_digitChar _ (show n / 10 % 10 < 10 by omega),
    digitVal_digitChar _ (show n % 10 < 10 by omega), Option.some.injEq]
  omega

theorem monthLens_getD_le (leap : Bool) (i : Nat) :
    (monthLens leap).getD i 31 ≤ 31 := by
  cases leap <;> rcases i with _|_|_|_|_|_|_|_|_|_|_|_|i <;> simp [monthLens, List.getD]

theorem isoparse_format (t : Nat) (hlim : t < spanDays 1970 8030 * usPerDay)
    (hms : t % 1000 = 0) (sep : Char) (z : Bool) :
    isoparse (formatChars sep z t) = some (t, if z then some 0 else none) := by
  have hdiv : t / usPerDay < spanDays 1970 8030 := by
    rw [Nat.div_lt_iff_lt_mul (show 0 < usPerDay by rw [show (usPerDay : Nat) = 86400000000 from rfl]; omega)]
    exact hlim
  obtain ⟨hdate, hy0, hy1, hmo0, hmo1, hd0, hd1⟩ := dateOfDays_spec (t / usPerDay) hdiv
  set D := dateOfDays (t / usPerDay) with hD
  set hh := t % usPerDay / usPerHour with hhh
  set mm := t % usPerHour / usPerMin with hmm
  set ss := t % usPerMin / usPerSec with hss
  set ms := t % usPerSec / 1000 with hmsd
  have hfmt : formatChars sep z t =
      digitChar (D.1 / 1000) :: digitChar (D.1 / 100 % 10) ::
      digitChar (D.1 / 10 % 10) :: digitChar (D.1 % 10) ::
      '-' :: digitChar (D.2.1 / 10) :: digitChar (D.2.1 % 10) ::
      '-' :: digitChar (D.2.2 / 10) :: digitChar (D.2.2 % 10) ::
      sep :: digitChar (hh / 10) :: digitChar (hh % 10) ::
      ':' :: digitChar (mm / 10) :: digitChar (mm % 10) ::
      ':' :: digitChar (ss / 10) :: digitChar (ss % 10) ::
      '.' :: digitChar (ms / 100) :: digitChar (ms / 10 % 10) :: digitChar (ms % 10) ::
      (if z then ['Z'] else []) := by
    simp [formatChars, civilOf, pad4, pad2, pad3, hD, hhh, hmm, hss, hmsd]

  have hhb : hh < 24 := by
    rw [hhh]; show t % 86400000000 / 3600000000 < 24; omega
  have hmb : mm < 60 := by
    rw [hmm]; show t % 3600000000 / 60000000 < 60; omega
  have hsb : ss < 60 := by
    rw [hss]; show t % 60000000 / 1000000 < 60; omega
  have hmsb : ms < 1000 := by
    rw [hmsd]; show t % 1000000 / 1000 < 1000; omega
  rw [hfmt]
  cases z with
  | true =>
    simp only [isoparse, if_true]
    have hgetd := monthLens_getD_le (isLeap D.1) (D.2.1 - 1)
    rw [read4_digits D.1 (by omega), read2_digits D.2.1 (by omega),
      read2_digits D.2.2 (by omega)]
    simp only [Option.pure_def, Option.bind_eq_bind, Option.some_bind]
    rw [if_pos (show 1970 ≤ D.1 ∧ 1 ≤ D.2.1 ∧ D.2.1 ≤ 12 ∧ 1 ≤ D.2.2 ∧
        D.2.2 ≤ (monthLens (isLeap D.1)).getD (D.2.1 - 1) 31 from
        ⟨hy0, hmo0, hmo1, hd0, hd1⟩)]
    simp only [parseTime]
    rw [read2_digits hh (by omega), read2_digits mm (by omega),
      read2_digits ss (by omega)]
    simp only [Option.pure_def, Option.bind_eq_bind, Option.some_bind]
    rw [if_pos (show hh ≤ 23 ∧ mm ≤ 59 ∧ ss ≤ 59 from by omega)]
    simp only [parseFracTz, parseFracDigits, List.takeWhile_cons,
      isDigitCh_digitChar, if_true, List.dropWhile_cons,
      show isDigitCh 'Z' = false from rfl, List.takeWhile_nil, List.dropWhile_nil]
    simp only [Bool.false_eq_true, Bool.true_eq_false, if_false, if_true,
      List.length_cons, List.length_nil]
    rw [digitsVal_digits3 ms hmsb]
    have harith : daysOfDate D.1 D.2.1 D.2.2 * usPerDay +
        (hh * usPerHour + mm * usPerMin + ss * usPerSec + ms * 1000) = t := by
      rw [hdate, hhh, hmm, hss, hmsd]
      show t / 86400000000 * 86400000000 +
          (t % 86400000000 / 3600000000 * 3600000000 +
           t % 3600000000 / 60000000 * 60000000 +
           t % 60000000 / 1000000 * 1000000 +
           t % 1000000 / 1000 * 1000) = t
      omega
    rw [if_pos (show 1 ≤ 0 + 1 + 1 + 1 ∧ 0 + 1 + 1 + 1 ≤ 6 from by omega)]
    rw [show (10:Nat) ^ (6 - (0 + 1 + 1 + 1)) = 1000 from by norm_num]
    simp only [show parseTz ['Z'] = some (some 0) from rfl, Option.map_some', Option.map_some,
      Option.some_bind, Option.some.injEq, Prod.mk.injEq]
    exact ⟨harith, trivial⟩
  | false =>
    simp only [isoparse, Bool.false_eq_true, if_false]
    have hgetd := monthLens_getD_le (isLeap D.1) (D.2.1 - 1)
    rw [read4_digits D.1 (by omega), read2_digits D.2.1 (by omega),
      read2_digits D.2.2 (by omega)]
    simp only [Option.pure_def, Option.bind_eq_bind, Option.some_bind]
    rw [if_pos (show 1970 ≤ D.1 ∧ 1 ≤ D.2.1 ∧ D.2.1 ≤ 12 ∧ 1 ≤ D.2.2 ∧
        D.2.2 ≤ (monthLens (isLeap D.1)).getD (D.2.1 - 1) 31 from
        ⟨hy0, hmo0, hmo1, hd0, hd1⟩)]
    simp only [parseTime]
    rw [read2_digits hh (by omega), read2_digits mm (by omega),
      read2_digits ss (by omega)]
    simp only [Option.pure_def, Option.bind_eq_bind, Option.some_bind]
    rw [if_pos (show hh ≤ 23 ∧ mm ≤ 59 ∧ ss ≤ 59 from by omega)]
    simp only [parseFracTz, parseFracDigits, List.takeWhile_cons,
      isDigitCh_digitChar, if_true, List.dropWhile_cons,
      List.takeWhile_nil, List.dropWhile_nil]
    simp only [Bool.false_eq_true, Bool.true_eq_false, if_false, if_true,
      List.length_cons, List.length_nil]
    rw [digitsVal_digits3 ms hmsb]
    have harith : daysOfDate D.1 D.2.1 D.2.2 * usPerDay +
        (hh * usPerHour + mm * usPerMin + ss * usPerSec + ms * 1000) = t := by
      rw [hdate, hhh, hmm, hss, hmsd]
      show t / 86400000000 * 86400000000 +
          (t % 86400000000 / 3600000000 * 3600000000 +
           t % 3600000000 / 60000000 * 60000000 +
           t % 60000000 / 1000000 * 1000000 +
           t % 1000000 / 1000 * 1000) = t
      omega
    rw [if_pos (show 1 ≤ 0 + 1 + 1 + 1 ∧ 0 + 1 + 1 + 1 ≤ 6 from by omega)]
    rw [show (10:Nat) ^ (6 - (0 + 1 + 1 + 1)) = 1000 from by norm_num]
    simp only [show parseTz [] = some none from rfl, Option.map_some', Option.map_some,
      Option.some_bind, Option.some.injEq, Prod.mk.injEq]
    exact ⟨harith, trivial⟩

/-- Claim C7: for every UTC instant `t` with whole milliseconds in the
modelled range (1970-01-01 up to year 10000),
`parse_timestamp (format_timestamp t)` and
`parse_timestamp (format_timestamp_ch t)` both recover `t` exactly
(`isoparse` reads the upstream format with its explicit `Z` and the
warehouse format as a naive instant reinterpreted as UTC); and every
numeric input strictly greater than 1e11 is taken as epoch milliseconds
while anything less or equal is taken as epoch seconds, yielding a UTC
instant. -/
theorem timestamp_roundtrip (t : Int) (h0 : 0 ≤ t)
    (hlim : t < ((spanDays 1970 8030 * usPerDay : Nat) : Int))
    (hms : t % 1000 = 0) :
    parse_timestamp (.str (format_timestamp t)) = .ok (some t) ∧
    parse_timestamp (.str (format_timestamp_ch t)) = .ok (some t) ∧
    (∀ v : Int, parse_timestamp (.num v) =
      .ok (some (if v > 100000000000 then v * 1000 else v * 1000000))) := by
  have hnat : t.toNat < spanDays 1970 8030 * usPerDay := by omega
  have hmsn : t.toNat % 1000 = 0 := by omega
  have h1 := isoparse_format t.toNat hnat hmsn 'T' true
  have h2 := isoparse_format t.toNat hnat hmsn ' ' false
  refine ⟨?_, ?_, fun v => rfl⟩
  · show parse_timestamp (.str (String.mk (formatChars 'T' true t.toNat))) =
      .ok (some t)
    simp only [parse_timestamp]
    rw [h1]
    simp only [if_true]
    simp only [Except.ok.injEq, Option.some.injEq]
    omega
  · show parse_timestamp (.str (String.mk (formatChars ' ' false t.toNat))) =
      .ok (some t)
    simp only [parse_timestamp]
    rw [h2]
    simp only [Bool.false_eq_true, if_false]
    simp only [Except.ok.injEq, Option.some.injEq]
    omega

/-- Witness for `timestamp_roundtrip` at 2025-01-01T12:00:00.123Z. -/
theorem timestamp_roundtrip_witness :
    parse_timestamp (.str (format_timestamp 1735732800123000)) =
      .ok (some 1735732800123000) ∧
    parse_timestamp (.str (format_timestamp_ch 1735732800123000)) =
      .ok (some 1735732800123000) ∧
    parse_timestamp (.num 1700000000000) = .ok (some 1700000000000000) := by
  have hlim : (1735732800123000 : Int) <
      ((spanDays 1970 8030 * usPerDay : Nat) : Int) := by
    have hs := spanDays_ge 1970 8030
    have h2 : (2930950 : Nat) * usPerDay ≤ spanDays 1970 8030 * usPerDay :=
      Nat.mul_le_mul_right _ (by omega)
    rw [show (usPerDay : Nat) = 86400000000 from rfl] at h2 ⊢
    omega
  have h := timestamp_roundtrip 1735732800123000 (by omega) hlim (by omega)
  refine ⟨h.1, h.2.1, ?_⟩
  rw [h.2.2 1700000000000]
  norm_num

end TimestampTheorems

section CycleTheorems

/-- A source satisfying `sourceOk` does not abort the cycle. -/
theorem sourceEvents_not_aborted (s : SrcSpec) (h : sourceOk s = true) :
    (sourceEvents s).2 = false := by
  rcases s with ⟨sid, st, hj, jf, df, runs⟩
  cases st <;> cases hj <;> cases jf <;> cases df <;>
    simp_all [sourceOk, sourceEvents]

/-- Per-source events of a non-aborting source: the storage step is
recorded, a failing backfill job is marked failed, and every failing
incremental index is recorded as an ingestion error. -/
theorem sourceEvents_mem (s : SrcSpec) (h : sourceOk s = true) :
    CEvent.storageOk s.sid ∈ (sourceEvents s).1 ∧
    (s.hasJob = true → s.jobFails = true →
      CEvent.backfillMarkedFailed s.sid ∈ (sourceEvents s).1) ∧
    (s.hasJob = false → ∀ r ∈ s.indexRuns, r.2 = true →
      CEvent.indexError s.sid r.1 ∈ (sourceEvents s).1) := by
  rcases s with ⟨sid, st, hj, jf, df, runs⟩
  cases st with
  | true => simp [sourceOk] at h
  | false =>
    cases hj with
    | true =>
      cases jf <;>
        exact ⟨by simp [sourceEvents], fun _ hc => by simp_all [sourceEvents],
          fun hc => by simp at hc⟩
    | false =>
      cases df with
      | true => simp [sourceOk] at h
      | false =>
        refine ⟨by simp [sourceEvents], fun hc => by simp at hc, ?_⟩
        intro _ r hr hrf
        refine List.mem_cons_of_mem _ (List.mem_map.mpr ⟨r, hr, ?_⟩)
        simp [hrf]

/-- The source loop of a cycle whose sources all satisfy `sourceOk` finishes
without an escaped exception and accumulates every source's events. -/
theorem runSources_ok (l : List SrcSpec) (hok : ∀ s ∈ l, sourceOk s = true) :
    (runSources l).2 = false ∧
    ∀ s ∈ l, ∀ e ∈ (sourceEvents s).1, e ∈ (runSources l).1 := by
  induction l with
  | nil => simp [runSources]
  | cons a l ih =>
    have ha := hok a (List.mem_cons_self ..)
    have hab := sourceEvents_not_aborted a ha
    obtain ⟨ih1, ih2⟩ := ih (fun s hs => hok s (List.mem_cons_of_mem _ hs))
    refine ⟨?_, ?_⟩
    · simp [runSources, hab, ih1]
    · intro s hs e he
      rcases List.mem_cons.mp hs with rfl | hs'
      · simp [runSources, hab]
        exact .inl he
      · simp [runSources, hab]
        exact .inr (ih2 s hs' e he)

/-- Every cycle of `run_loop` executes, regardless of whether earlier
cycles raised: the k-th recorded outcome is `run_once` of the k-th cycle. -/
theorem run_loop_getElem (cycles : Nat → List SrcSpec) :
    ∀ n i k, k < n →
      (run_loop cycles n i)[k]? = some (run_once (cycles (i + k))) := by
  intro n
  induction n with
  | zero => omega
  | succ n ih =>
    intro i k hk
    cases k with
    | zero => simp [run_loop]
    | succ k =>
      have := ih (i + 1) k (by omega)
      simp only [run_loop, List.getElem?_cons_succ]
      rw [this, show i + 1 + k = i + (k + 1) by omega]

/-- Claim C2, counterexample: in a cycle with two enabled sources where the
first source's project-storage setup raises, `run_once` aborts — the second
source is never processed, no `ingestion_state` is written for the failure,
and even the idle heartbeat is skipped.  The exception is only logged by the
outer loop. -/
theorem cycle_abort_counterexample :
    run_once [⟨1, true, false, false, false, []⟩,
              ⟨2, false, false, false, false, [("logs-1", false)]⟩] =
      ([.heartbeat "running", .storageError 1], true) ∧
    (run_once [⟨1, true, false, false, false, []⟩,
               ⟨2, false, false, false, false, [("logs-1", false)]⟩]).1.filter
        (touchesSource 2) = [] := by
  exact ⟨rfl, rfl⟩

/-- Claim C2 (amended): a failure *inside backfill processing* is recorded
by marking the job failed, and a failure *processing one index* of an
incremental tail is recorded in that index's ingestion state; in both cases
the remaining indices and sources of the cycle still run.  (A failure in
project-storage setup or in incremental index discovery instead aborts the
remainder of the cycle — see the counterexample.)  An uncaught exception in
a cycle is logged by `run_loop`, which continues with the next cycle. -/
theorem cycle_isolation_amended (sources : List SrcSpec)
    (hok : ∀ s ∈ sources, sourceOk s = true) :
    (run_once sources).2 = false ∧
    (∀ s ∈ sources,
      CEvent.storageOk s.sid ∈ (run_once sources).1 ∧
      (s.hasJob = true → s.jobFails = true →
        CEvent.backfillMarkedFailed s.sid ∈ (run_once sources).1) ∧
      (s.hasJob = false → ∀ r ∈ s.indexRuns, r.2 = true →
        CEvent.indexError s.sid r.1 ∈ (run_once sources).1)) ∧
    (∀ (cycles : Nat → List SrcSpec) (n k : Nat), k < n →
      (run_loop cycles n 0)[k]? = some (run_once (cycles k))) := by
  obtain ⟨h1, h2⟩ := runSources_ok sources hok
  refine ⟨by simp [run_once, h1], ?_, ?_⟩
  · intro s hs
    obtain ⟨m1, m2, m3⟩ := sourceEvents_mem s (hok s hs)
    refine ⟨?_, fun hj hf => ?_, fun hj r hr hrf => ?_⟩
    · simp only [run_once]
      exact List.mem_cons_of_mem _ (List.mem_append_left _ (h2 s hs _ m1))
    · simp only [run_once]
      exact List.mem_cons_of_mem _ (List.mem_append_left _ (h2 s hs _ (m2 hj hf)))
    · simp only [run_once]
      exact List.mem_cons_of_mem _ (List.mem_append_left _ (h2 s hs _ (m3 hj r hr hrf)))
  · intro cycles n k hk
    simpa using run_loop_getElem cycles n 0 k hk

/-- Witness source: a failing backfill job. -/
def srcW1 : SrcSpec := ⟨1, false, true, true, false, []⟩

/-- Witness source: one failing and one succeeding incremental index. -/
def srcW2 : SrcSpec := ⟨2, false, false, false, false, [("i1", true), ("i2", false)]⟩

/-- Witness source: project-storage setup raises. -/
def srcAbortW : SrcSpec := ⟨1, true, false, false, false, []⟩

/-- Witness for `cycle_isolation_amended` at concrete inputs: a failing
backfill source, a source with one failing and one succeeding index, and a
loop whose first cycle aborts while the second still runs. -/
theorem cycle_isolation_amended_witness :
    (run_once [srcW1, srcW2]).2 = false ∧
    CEvent.backfillMarkedFailed 1 ∈ (run_once [srcW1, srcW2]).1 ∧
    CEvent.indexError 2 "i1" ∈ (run_once [srcW1, srcW2]).1 ∧
    (run_loop (fun _ => [srcAbortW]) 2 0)[1]? = some (run_once [srcAbortW]) := by
  have h := cycle_isolation_amended [srcW1, srcW2]
    (by intro s hs; fin_cases hs <;> rfl)
  refine ⟨h.1, ?_, ?_, ?_⟩
  · exact (h.2.1 srcW1 (by simp)).2.1 rfl rfl
  · exact (h.2.1 srcW2 (by simp)).2.2 rfl ("i1", true) (by simp [srcW2]) rfl
  · exact h.2.2 (fun _ => [srcAbortW]) 2 1 (by omega)

end CycleTheorems


section WindowTheorems

theorem incremental_window_spec (state : Option IngestionState) (now : Int)
    (ov : Int) (hov : 0 ≤ ov) :
    (incremental_window state now ov).1 =
      (match state with
       | some st =>
         match st.last_ts with
         | some t => t - ov * 60 * 1000000
         | none => now - ov * 60 * 1000000
       | none => now - ov * 60 * 1000000) ∧
    (incremental_window state now ov).2.1 = now ∧
    ((incremental_window state now ov).2.2 =
      match state with
      | some st => if st.last_ts.isSome ∧ ov = 0 then st.last_sort_json else []
      | none => []) ∧
    build_query "@timestamp" (some 1735732200000000) (some now) none =
      Json.obj [("bool", Json.obj [("filter", Json.arr [Json.obj [("range",
        Json.obj [("@timestamp",
          Json.obj [("gte", Json.str "2025-01-01T11:50:00.000Z"),
                    ("lte", Json.str (format_timestamp now))])])]])])] ∧
    (incremental_window (some ⟨some 1735732800000000, [], none⟩) now 10).1 =
      1735732200000000 := by
  refine ⟨?_, ?_, ?_, ?_, ?_⟩
  · rcases state with _ | st
    · rfl
    · rcases h : st.last_ts with _ | t <;>
        simp [incremental_window, h]
  · rfl
  · rcases state with _ | st
    · rfl
    · rcases h : st.last_ts with _ | t
      · simp [incremental_window, h]
      · by_cases hz : ov = 0
        · subst hz
          simp [incremental_window, h]
        · have hpos : ¬ (ov * 60 ≤ 0) := by omega
          simp [incremental_window, h, hpos, hz]
  · rfl
  · rfl

theorem incremental_window_spec_witness :
    (incremental_window (some ⟨some 1700000000000000, [Json.num 5], none⟩)
      1700000100000000 0).2.2 = [Json.num 5] ∧
    (incremental_window (some ⟨some 1700000000000000, [Json.num 5], none⟩)
      1700000100000000 10).2.2 = [] := by
  have h0 := (incremental_window_spec
    (some ⟨some 1700000000000000, [Json.num 5], none⟩) 1700000100000000 0
    (by omega)).2.2.1
  have h10 := (incremental_window_spec
    (some ⟨some 1700000000000000, [Json.num 5], none⟩) 1700000100000000 10
    (by omega)).2.2.1
  constructor
  · rw [h0]
    simp
  · rw [h10]
    simp

end WindowTheorems


section HitTheorems

/-- Claim C6, counterexample: a hit whose time-field value is a malformed
*string* is not skipped — `dateutil.parser.isoparse` raises `ValueError`,
aborting the whole batch, so the following good hit is never mapped. -/
theorem hit_bad_timestamp_counterexample :
    build_rows 0 [⟨some "bad", some "i", [], [("@timestamp", .str "garbage")]⟩,
        ⟨some "a", some "i", [],
          [("@timestamp", .str "2025-01-01T12:00:00.123Z")]⟩]
      "@timestamp" 7 = .error "ValueError" ∧
    build_rows 0 [⟨some "bad", some "i", [], [("@timestamp", .str "garbage")]⟩,
        ⟨some "a", some "i", [],
          [("@timestamp", .str "2025-01-01T12:00:00.123Z")]⟩]
      "@timestamp" 7 ≠
      .ok [{ event_id := "a", event_ts := "2025-01-01 12:00:00.123",
             index_name := "i", source_id := "7",
             raw := "\x7b\"@timestamp\":\"2025-01-01T12:00:00.123Z\"\x7d",
             ingested_at := "1970-01-01 00:00:00.000",
             extras := [("_index", "i")] }] := by
  have he : build_rows 0
      [⟨some "bad", some "i", [], [("@timestamp", .str "garbage")]⟩,
       ⟨some "a", some "i", [],
         [("@timestamp", .str "2025-01-01T12:00:00.123Z")]⟩]
      "@timestamp" 7 = (.error "ValueError" : Except String (List Row)) := rfl
  refine ⟨he, ?_⟩
  rw [he]
  simp

/-- The loop of `_build_rows` refines the claim's per-hit mapping whenever
no hit raises: hits whose timestamp extraction yields no instant are
skipped and the rest of the batch continues; every other hit contributes
exactly the claimed row. -/
theorem build_rows_go_spec (ia tf : String) (sid : Nat) :
    ∀ hits : List Hit, (∀ h ∈ hits, ∃ o, extract_event_ts h tf = .ok o) →
      build_rows_go ia tf sid hits = .ok (hits.filterMap (fun h =>
        match extract_event_ts h tf with
        | .ok (some t) => some (claimRow ia sid h t)
        | _ => none)) := by
  intro hits
  induction hits with
  | nil => intro _; rfl
  | cons hit rest ih =>
    intro hall
    obtain ⟨o, ho⟩ := hall hit (by simp)
    have hrest := ih (fun h hh => hall h (by simp [hh]))
    rcases o with _ | t
    · simp only [build_rows_go, ho, bind, Except.bind, List.filterMap_cons]
      rw [hrest]
    · simp only [build_rows_go, ho, bind, Except.bind, List.filterMap_cons,
        hrest]
      rfl

end HitTheorems


section HitTheorems2

/-- Claim C6 (amended): whenever no hit's timestamp extraction raises, the
batch maps exactly as the claim describes — `event_id = _id ||
_source.event_id || ""`, `event_ts` from `_source[time_field]` with
`sort[0]` fallback in warehouse format, `index_name = _index`, `source_id`
stringified, `raw` the compact JSON of `_source`, `ingested_at = now`,
`extras = [("_index", _index)]` — and hits without an extractable
timestamp are skipped while the rest of the batch continues.  (A malformed
timestamp *string*, however, raises `ValueError` and aborts the whole
batch — see the counterexample.)  The second conjunct is the concrete
spec scenario. -/
theorem hit_mapping_amended (now : Int) (tf : String) (sid : Nat)
    (hits : List Hit) (hok : ∀ h ∈ hits, ∃ o, extract_event_ts h tf = .ok o) :
    build_rows now hits tf sid = .ok (hits.filterMap (fun h =>
      match extract_event_ts h tf with
      | .ok (some t) => some (claimRow (format_timestamp_ch now) sid h t)
      | _ => none)) ∧
    build_rows 1735736675000000
      [⟨some "a", some "logs-2025.01.01", [Json.num 1735732800123],
        [("@timestamp", .str "2025-01-01T12:00:00.123Z"), ("x", .num 1)]⟩]
      "@timestamp" 7 =
      .ok [{ event_id := "a", event_ts := "2025-01-01 12:00:00.123",
             index_name := "logs-2025.01.01", source_id := "7",
             raw := "\x7b\"@timestamp\":\"2025-01-01T12:00:00.123Z\",\"x\":1\x7d",
             ingested_at := "2025-01-01 13:04:35.000",
             extras := [("_index", "logs-2025.01.01")] }] := by
  exact ⟨build_rows_go_spec (format_timestamp_ch now) tf sid hits hok, rfl⟩

/-- Witness for `hit_mapping_amended`: one hit without a timestamp
(skipped) followed by one mapped hit. -/
theorem hit_mapping_amended_witness :
    build_rows 0 [⟨some "x", some "i", [], []⟩,
        ⟨some "a", some "i", [], [("@timestamp", .num 1700000000000)]⟩]
      "@timestamp" 7 =
      .ok [claimRow "1970-01-01 00:00:00.000" 7
            ⟨some "a", some "i", [], [("@timestamp", .num 1700000000000)]⟩
            1700000000000000] := by
  have h := (hit_mapping_amended 0 "@timestamp" 7
    [⟨some "x", some "i", [], []⟩,
     ⟨some "a", some "i", [], [("@timestamp", .num 1700000000000)]⟩]
    (by
      intro h hh
      fin_cases hh
      · exact ⟨none, rfl⟩
      · exact ⟨some 1700000000000000, rfl⟩)).1
  rw [h]
  rfl

end HitTheorems2

section MigratorTheorems

/-- Claim C8, counterexample: the compiled expression carries a space after
`raw,` (the code's f-string `JSON_VALUE(raw, '...')`), so it differs from
the claimed exact text, which has none. -/
theorem value_expr_counterexample :
    build_column_expr "Nullable(IPv6)" (some "$.source.ip\n$.client.ip") =
      .ok ("coalesce(toIPv6OrNull(JSON_VALUE(raw, " ++ sq ++ "$.source.ip" ++
        sq ++ ")), toIPv6OrNull(JSON_VALUE(raw, " ++ sq ++ "$.client.ip" ++
        sq ++ ")))") ∧
    ("coalesce(toIPv6OrNull(JSON_VALUE(raw, " ++ sq ++ "$.source.ip" ++ sq ++
        ")), toIPv6OrNull(JSON_VALUE(raw, " ++ sq ++ "$.client.ip" ++ sq ++
        ")))" : String) ≠
      ("coalesce(toIPv6OrNull(JSON_VALUE(raw," ++ sq ++ "$.source.ip" ++ sq ++
        ")), toIPv6OrNull(JSON_VALUE(raw," ++ sq ++ "$.client.ip" ++ sq ++
        ")))" : String) := by
  exact ⟨rfl, by decide⟩

/-- `mapM` over the scalar per-path compiler is pure when no path is
`__`-prefixed. -/
theorem mapM_column_path_expr (ct : String) :
    ∀ paths : List String, (∀ p ∈ paths, strStarts "__" p = false) →
      paths.mapM (column_path_expr ct) =
        .ok (paths.map (fun p => build_value_expr p ct)) := by
  intro paths
  induction paths with
  | nil => intro _; rfl
  | cons p ps ih =>
    intro hall
    have hp : strStarts "__" p = false := hall p (by simp)
    have hps := ih (fun q hq => hall q (by simp [hq]))
    rw [List.mapM_cons, hps]
    simp only [column_path_expr, hp, Bool.false_eq_true, if_false, bind,
      Except.bind, List.map_cons]
    rfl

end MigratorTheorems


section MigratorTheorems2

/-- Claim C8 (amended): for a scalar-typed parsing field the compiler
extracts each path with `JSON_VALUE(raw, '<path>')` — with a space after
the comma — coerced by the unwrapped type (`DateTime*` →
`parseDateTime64BestEffortOrNull`, `IPv6` → `toIPv6OrNull`, `UIntN`/`IntN`
→ `toUIntNOrNull`/`toIntNOrNull` with 64 when `N` is not digits, `Float*`
→ `toFloat64OrNull`, anything else → `nullIf(expr, '')`); multiple paths
combine via `coalesce` and a single path stands alone; the concrete
`Nullable(IPv6)` example compiles to exactly the claimed text with the
space after `raw,`. -/
theorem value_expr_amended (ct : String) (jp : Option String)
    (hscalar : strStarts "Array(" (unwrap_nullable ct) = false)
    (hne : split_paths jp ≠ [])
    (hplain : ∀ p ∈ split_paths jp, strStarts "__" p = false) :
    (build_column_expr ct jp = .ok (
      match split_paths jp with
      | [p] => build_value_expr p ct
      | ps => "coalesce(" ++
          joinSep ", " (ps.map (fun p => build_value_expr p ct)) ++ ")")) ∧
    (∀ e : String,
      coerce_expression e "DateTime64(3)" =
        "parseDateTime64BestEffortOrNull(" ++ e ++ ")" ∧
      coerce_expression e "DateTime" =
        "parseDateTime64BestEffortOrNull(" ++ e ++ ")" ∧
      coerce_expression e "IPv6" = "toIPv6OrNull(" ++ e ++ ")" ∧
      coerce_expression e "UInt16" = "toUInt16OrNull(" ++ e ++ ")" ∧
      coerce_expression e "Int8" = "toInt8OrNull(" ++ e ++ ")" ∧
      coerce_expression e "UInt" = "toUInt64OrNull(" ++ e ++ ")" ∧
      coerce_expression e "Float32" = "toFloat64OrNull(" ++ e ++ ")" ∧
      coerce_expression e "String" =
        "nullIf(" ++ e ++ ", " ++ sq ++ sq ++ ")") ∧
    (build_value_expr "$.x" "Nullable(IPv6)" =
      "toIPv6OrNull(JSON_VALUE(raw, " ++ sq ++ "$.x" ++ sq ++ "))") ∧
    (build_column_expr "Nullable(IPv6)" (some "$.source.ip\n$.client.ip") =
      .ok ("coalesce(toIPv6OrNull(JSON_VALUE(raw, " ++ sq ++ "$.source.ip" ++
        sq ++ ")), toIPv6OrNull(JSON_VALUE(raw, " ++ sq ++ "$.client.ip" ++
        sq ++ ")))")) := by
  refine ⟨?_, fun e => ⟨rfl, rfl, rfl, rfl, rfl, rfl, rfl, rfl⟩, rfl, rfl⟩
  unfold build_column_expr
  dsimp only
  have hmap := mapM_column_path_expr ct (split_paths jp) hplain
  have hemp : (split_paths jp).isEmpty = false := by
    rcases h : split_paths jp with _ | ⟨p, ps⟩
    · exact absurd h hne
    · rfl
  rw [hemp]
  simp only [Bool.false_eq_true, if_false, hscalar, hmap, bind, Except.bind]
  rcases h : split_paths jp with _ | ⟨p, ps⟩
  · exact absurd h hne
  · rcases ps with _ | ⟨q, qs⟩
    · rfl
    · rfl

/-- Witness for `value_expr_amended` at a concrete two-path column. -/
theorem value_expr_amended_witness :
    build_column_expr "Nullable(String)" (some "a\nb") =
      .ok ("coalesce(nullIf(JSON_VALUE(raw, " ++ sq ++ "$.a" ++ sq ++ "), " ++
        sq ++ sq ++ "), nullIf(JSON_VALUE(raw, " ++ sq ++ "$.b" ++ sq ++
        "), " ++ sq ++ sq ++ "))") := by
  have h := (value_expr_amended "Nullable(String)" (some "a\nb") (by decide)
    (by decide) (by decide)).1
  rw [h]
  rfl

end MigratorTheorems2

section BackfillTheorems

/-- Claim C3, observed behaviour at the backfill-resume scenario (job
resuming at index `logs-02` of `logs-01..03` with checkpoint
`last_ts = 150`, `last_sort_json = [1700000000000, "z"]`): `logs-01` is
skipped and `logs-02` is resumed with that cursor, as claimed, and the job
ends `completed`; but `logs-03` is also invoked with window start
`last_ts = 150` and the stale `search_after` cursor rather than from
`job.start_ts = 100` with no cursor — `_process_backfill` reassigns
`resume_index` to the next index after each index, so every subsequent
index re-matches `index_name == resume_index` and inherits the in-memory
checkpoint. -/
theorem backfill_resume_code_bug :
    ((processBackfill jobW ["logs-01", "logs-02", "logs-03"]
        (fun _ => true) (fun _ => [])).filterMap callArgs =
      [("logs-02", some 150, some 200,
          [Json.num 1700000000000, Json.str "z"]),
       ("logs-03", some 150, some 200,
          [Json.num 1700000000000, Json.str "z"])]) ∧
    ((processBackfill jobW ["logs-01", "logs-02", "logs-03"]
        (fun _ => true) (fun _ => [])).getLast? =
      some (.setStatus "completed")) ∧
    jobW.startTs = some 100 ∧ ((some 150 : Option Int) ≠ some 100) := by
  refine ⟨rfl, rfl, rfl, by decide⟩

/-- Scanning for the first inactive check passes over a prefix without
one. -/
theorem cancelClean_append_noFalse (l m : List Eff)
    (h : ∀ e ∈ l, isFalseCheck e = false) :
    cancelClean (l ++ m) = cancelClean m := by
  induction l with
  | nil => rfl
  | cons e t ih =>
    have he : isFalseCheck e = false := h e (List.mem_cons_self e t)
    simp only [List.cons_append, cancelClean, he, Bool.false_eq_true,
      if_false]
    exact ih (fun x hx => h x (List.mem_cons_of_mem e hx))

/-- A trace that ends in an inactive check followed only by inactive
checks is cancellation-clean. -/
theorem cancelClean_false_middle (l m : List Eff)
    (hl : ∀ e ∈ l, isFalseCheck e = false)
    (hm : m.all isFalseCheck = true) (hlen : m.length ≤ 1) :
    cancelClean (l ++ .statusCheck false :: m) = true := by
  rw [cancelClean_append_noFalse l _ hl]
  simp [cancelClean, isFalseCheck, hm, hlen]

/-- The paged loop advances the status-read counter and its trace either
contains no inactive check, or is a clean prefix closed by a single
inactive check that was read at some counter value below the final one. -/
theorem processIndexGo_split (index : String) (oracle : Nat → Bool)
    (batches : List Batch) : ∀ cnt : Nat,
    cnt < (processIndexGo index oracle batches cnt).2 ∧
    ((∀ e ∈ (processIndexGo index oracle batches cnt).1,
        isFalseCheck e = false) ∨
      (∃ t, (processIndexGo index oracle batches cnt).1 =
          t ++ [.statusCheck false] ∧
        (∀ e ∈ t, isFalseCheck e = false) ∧
        ∃ k, k < (processIndexGo index oracle batches cnt).2 ∧
          oracle k = false)) := by
  induction batches with
  | nil =>
    intro cnt
    cases h : oracle cnt with
    | false =>
      simp only [processIndexGo, h, Bool.not_false, if_true]
      refine ⟨Nat.lt_succ_self cnt, Or.inr ⟨[], rfl, by simp,
        cnt, Nat.lt_succ_self cnt, h⟩⟩
    | true =>
      simp only [processIndexGo, h, Bool.not_true, Bool.false_eq_true,
        if_false]
      refine ⟨Nat.lt_succ_self cnt, Or.inl ?_⟩
      intro e he
      simp only [List.mem_singleton] at he
      subst he; rfl
  | cons b bs ih =>
    intro cnt
    cases h : oracle cnt with
    | false =>
      simp only [processIndexGo, h, Bool.not_false, if_true]
      refine ⟨Nat.lt_succ_self cnt, Or.inr ⟨[], rfl, by simp,
        cnt, Nat.lt_succ_self cnt, h⟩⟩
    | true =>
      simp only [processIndexGo, h, Bool.not_true, Bool.false_eq_true,
        if_false]
      obtain ⟨hlt, hdisj⟩ := ih (cnt + 1)
      have hins : ∀ e ∈ (if b.rows > 0 then [Eff.insert b.rows] else []),
          isFalseCheck e = false := by
        split
        · intro e he
          simp only [List.mem_singleton] at he
          subst he; rfl
        · intro e he; simp at he
      refine ⟨Nat.lt_trans (Nat.lt_succ_self cnt) hlt, ?_⟩
      rcases hdisj with hno | ⟨t, ht, htno, k, hk, hkf⟩
      · refine Or.inl ?_
        intro e he
        simp only [List.mem_cons, List.mem_append] at he
        rcases he with rfl | he | rfl | he
        · rfl
        · exact hins e he
        · rfl
        · exact hno e he
      · refine Or.inr ⟨.statusCheck true ::
          ((if b.rows > 0 then [Eff.insert b.rows] else []) ++
            .bfCheckpoint (some index) b.lastTs b.lastSort b.lastId :: t),
          ?_, ?_, k, hk, hkf⟩
        · rw [ht]; simp
        · intro e he
          simp only [List.mem_cons, List.mem_append] at he
          rcases he with rfl | he | rfl | he
          · rfl
          · exact hins e he
          · rfl
          · exact htno e he

/-- With a status that can only go from active to inactive (never back),
the index loop of a backfill is cancellation-clean. -/
theorem processBackfillGo_cancelClean (job : BackfillJob)
    (oracle : Nat → Bool) (batches : String → List Batch)
    (hmono : ∀ i j : Nat, i ≤ j → oracle j = true → oracle i = true) :
    ∀ (pending : List String) (resumeIdx : Option String) (cnt : Nat),
      cancelClean (processBackfillGo job oracle batches pending resumeIdx cnt)
        = true := by
  intro pending
  induction pending with
  | nil =>
    intro resumeIdx cnt
    cases h : oracle cnt with
    | false => simp [processBackfillGo, h, cancelClean, isFalseCheck]
    | true => simp [processBackfillGo, h, cancelClean, isFalseCheck]
  | cons index rest ih =>
    intro resumeIdx cnt
    cases h : oracle cnt with
    | false => simp [processBackfillGo, h, cancelClean, isFalseCheck]
    | true =>
      simp only [processBackfillGo, h, Bool.not_true, Bool.false_eq_true,
        if_false]
      split
      · -- skipped index
        simp only [cancelClean, isFalseCheck, Bool.false_eq_true, if_false]
        exact ih resumeIdx (cnt + 1)
      · -- processed index
        simp only [processIndex]
        obtain ⟨hlt, hdisj⟩ :=
          processIndexGo_split index oracle (batches index) (cnt + 1)
        rcases hdisj with hno | ⟨t, ht, htno, k, hk, hkf⟩
        · cases h2 : oracle
              (processIndexGo index oracle (batches index) (cnt + 1)).2 with
          | true =>
            simp only [h2, if_true]
            have hfront : ∀ e ∈ (Eff.statusCheck true ::
                Eff.processCall index
                  (if resumeIdx = some index then job.lastTs else job.startTs)
                  job.endTs
                  (if resumeIdx = some index then job.lastSortJson else []) ::
                (processIndexGo index oracle (batches index) (cnt + 1)).1 ++
                [Eff.statusCheck true,
                 Eff.bfCheckpoint rest.head? none [] none]),
                isFalseCheck e = false := by
              intro e he
              simp only [List.mem_cons, List.mem_append, List.not_mem_nil,
                or_false] at he
              rcases he with (rfl | rfl | he) | (rfl | rfl)
              · rfl
              · rfl
              · exact hno e he
              · rfl
              · rfl
            have := cancelClean_append_noFalse _
              (processBackfillGo job oracle batches rest rest.head?
                ((processIndexGo index oracle (batches index) (cnt + 1)).2 + 1))
              hfront
            simp only [List.cons_append, List.append_assoc,
              List.nil_append] at this ⊢
            rw [this]
            exact ih rest.head? _
          | false =>
            simp only [h2, Bool.false_eq_true, if_false]
            have hfront : ∀ e ∈ (Eff.statusCheck true ::
                Eff.processCall index
                  (if resumeIdx = some index then job.lastTs else job.startTs)
                  job.endTs
                  (if resumeIdx = some index then job.lastSortJson else []) ::
                (processIndexGo index oracle (batches index) (cnt + 1)).1),
                isFalseCheck e = false := by
              intro e he
              simp only [List.mem_cons] at he
              rcases he with rfl | rfl | he
              · rfl
              · rfl
              · exact hno e he
            have := cancelClean_false_middle _ [] hfront (by simp) (by simp)
            simpa using this
        · -- cancellation seen inside the paged loop
          have h2 : oracle
              (processIndexGo index oracle (batches index) (cnt + 1)).2
                = false := by
            cases hx : oracle
                (processIndexGo index oracle (batches index) (cnt + 1)).2 with
            | false => rfl
            | true =>
              exact absurd (hmono k _ (Nat.le_of_lt hk) hx) (by simp [hkf])
          simp only [h2, Bool.false_eq_true, if_false, ht]
          have hfront : ∀ e ∈ (Eff.statusCheck true ::
              Eff.processCall index
                (if resumeIdx = some index then job.lastTs else job.startTs)
                job.endTs
                (if resumeIdx = some index then job.lastSortJson else []) ::
              t), isFalseCheck e = false := by
            intro e he
            simp only [List.mem_cons] at he
            rcases he with rfl | rfl | he
            · rfl
            · rfl
            · exact htno e he
          have := cancelClean_false_middle _ [Eff.statusCheck false] hfront
            (by simp [isFalseCheck]) (by simp)
          simp only [List.cons_append, List.append_assoc,
            List.singleton_append] at this ⊢
          exact this

/-- The gate automaton composes over concatenation. -/
theorem gatedRun_append (g : Bool) (l m : List Eff) :
    gatedRun g (l ++ m) = (gatedRun g l).bind (fun g2 => gatedRun g2 m) := by
  induction l generalizing g with
  | nil => rfl
  | cons e t ih =>
    cases e with
    | statusCheck b =>
      simp only [List.cons_append, gatedRun]
      exact ih b
    | processCall i s en sa => simp [gatedRun, isJobWrite, ih]
    | insert r =>
      simp only [List.cons_append, gatedRun, isJobWrite]
      cases g with
      | true => simp [ih]
      | false => simp
    | bfCheckpoint i ts so id =>
      simp only [List.cons_append, gatedRun, isJobWrite]
      cases g with
      | true => simp [ih]
      | false => simp
    | setStatus s =>
      simp only [List.cons_append, gatedRun, isJobWrite]
      cases g with
      | true => simp [ih]
      | false => simp

/-- Every write of the paged loop is emitted under a fresh active status
read. -/
theorem processIndexGo_gated (index : String) (oracle : Nat → Bool)
    (batches : List Batch) : ∀ (cnt : Nat) (g : Bool),
    ∃ g2, gatedRun g ((processIndexGo index oracle batches cnt).1) =
      some g2 := by
  induction batches with
  | nil =>
    intro cnt g
    cases h : oracle cnt with
    | false =>
      refine ⟨false, ?_⟩
      simp [processIndexGo, h, gatedRun]
    | true =>
      refine ⟨true, ?_⟩
      simp [processIndexGo, h, gatedRun]
  | cons b bs ih =>
    intro cnt g
    cases h : oracle cnt with
    | false =>
      refine ⟨false, ?_⟩
      simp [processIndexGo, h, gatedRun]
    | true =>
      obtain ⟨g2, hg2⟩ := ih (cnt + 1) true
      refine ⟨g2, ?_⟩
      simp only [processIndexGo, h, Bool.not_true, Bool.false_eq_true,
        if_false, gatedRun]
      rw [gatedRun_append]
      split
      · simp [gatedRun, isJobWrite, hg2]
      · simp [gatedRun, isJobWrite, hg2]

/-- Every write of the backfill index loop is emitted under a fresh active
status read. -/
theorem processBackfillGo_gated (job : BackfillJob) (oracle : Nat → Bool)
    (batches : String → List Batch) :
    ∀ (pending : List String) (resumeIdx : Option String) (cnt : Nat)
      (g : Bool),
      (gatedRun g
        (processBackfillGo job oracle batches pending resumeIdx cnt)).isSome
        = true := by
  intro pending
  induction pending with
  | nil =>
    intro resumeIdx cnt g
    cases h : oracle cnt with
    | false => simp [processBackfillGo, h, gatedRun]
    | true => simp [processBackfillGo, h, gatedRun, isJobWrite]
  | cons index rest ih =>
    intro resumeIdx cnt g
    cases h : oracle cnt with
    | false => simp [processBackfillGo, h, gatedRun]
    | true =>
      simp only [processBackfillGo, h, Bool.not_true, Bool.false_eq_true,
        if_false]
      split
      · simp only [gatedRun]
        exact ih resumeIdx (cnt + 1) true
      · simp only [processIndex, List.cons_append, gatedRun, isJobWrite,
          Bool.false_and, Bool.false_eq_true, if_false]
        rw [show ∀ (l m : List Eff), l.append m = l ++ m from fun _ _ => rfl,
          gatedRun_append]
        obtain ⟨g2, hg2⟩ := processIndexGo_gated index oracle (batches index)
          (cnt + 1) true
        rw [hg2]
        simp only [Option.some_bind]
        split
        · simp only [gatedRun, isJobWrite]
          exact ih rest.head? _ true
        · simp [gatedRun]

/-- Claim C4: the backfill re-reads the job status before each batch and
between indices (every `statusCheck` in the trace model); for any status
history that once inactive stays inactive, the trace after the first
observed inactive status contains at most one further effect — itself
another inactive status check — so processing stops within one batch
boundary with no further warehouse write, checkpoint update, or status
mutation; moreover every write, checkpoint update, or status mutation in
the index loop occurs under an immediately governing active status read. -/
theorem backfill_cancellation (job : BackfillJob) (indices : List String)
    (oracle : Nat → Bool) (batches : String → List Batch)
    (hmono : ∀ i j : Nat, i ≤ j → oracle j = true → oracle i = true) :
    cancelClean (processBackfill job indices oracle batches) = true ∧
    ∀ (pending : List String) (resumeIdx : Option String) (cnt : Nat),
      (gatedRun false
        (processBackfillGo job oracle batches pending resumeIdx cnt)).isSome
        = true := by
  constructor
  · simp only [processBackfill]
    have hinit : ∀ e ∈ (if job.status == "pending"
        then [Eff.setStatus "running"] else []), isFalseCheck e = false := by
      split
      · intro e he
        simp only [List.mem_singleton] at he
        subst he; rfl
      · intro e he; simp at he
    split
    · rw [cancelClean_append_noFalse _ _ hinit]
      rfl
    · rw [cancelClean_append_noFalse _ _ hinit]
      exact processBackfillGo_cancelClean job oracle batches hmono indices _ 0
  · intro pending resumeIdx cnt
    exact processBackfillGo_gated job oracle batches pending resumeIdx cnt
      false

/-- Closed instantiation of the cancellation theorem: a pending two-index
job under a status oracle that answers active for the first two reads and
inactive from then on. -/
theorem backfill_cancellation_witness :
    (∀ i j : Nat, i ≤ j → (fun n : Nat => decide (n < 2)) j = true →
      (fun n : Nat => decide (n < 2)) i = true) ∧
    (cancelClean (processBackfill
        ⟨"pending", some 0, some 10, none, none, [], none⟩ ["a", "b"]
        (fun n : Nat => decide (n < 2))
        (fun _ => [⟨3, some 5, [Json.num 1], some "x"⟩])) = true ∧
      ∀ (pending : List String) (resumeIdx : Option String) (cnt : Nat),
        (gatedRun false
          (processBackfillGo ⟨"pending", some 0, some 10, none, none, [], none⟩
            (fun n : Nat => decide (n < 2))
            (fun _ => [⟨3, some 5, [Json.num 1], some "x"⟩])
            pending resumeIdx cnt)).isSome = true) :=
  ⟨fun i j hij hj => by
      simp only [decide_eq_true_eq] at hj ⊢
      omega,
    backfill_cancellation _ _ _ _ (fun i j hij hj => by
      simp only [decide_eq_true_eq] at hj ⊢
      omega)⟩

end BackfillTheorems

end DPM
